import Mathlib

/-!
Shallow embedding of the route-optimization core of this repository
(src/src/global_route_optimizer.py, src/src/route_optimizer.py,
src/src/kakao_api_client.py, src/src/excel_handler.py,
src/src/coordinate_utils.py) and proofs settling the frozen claims.

Modelling conventions used throughout:

* Python floats are modelled by the rationals.  Every arithmetic
  operation the code performs (addition, division by 60 or 1000,
  multiplication by constants such as 1.3) is exact on the values at
  hand, so nothing in the claims depends on floating-point rounding.
* `CoordinateValidator.calculate_distance` (the haversine formula on
  WGS84 coordinates, coordinate_utils.py lines 52-83) is treated as an
  opaque parameter `d : DistanceFn`.  The claims under examination are
  about the combinatorial and control-flow structure of the optimizer
  and hold for every distance function; concrete instances in the
  witnesses use simple explicit rational functions.
* Values obtained from the external directions provider are inputs:
  API calls are modelled by a response script (attempt number to
  response) or by the measured pair itself, exactly as the code reads
  them from the wire.
* Python iteration over a set of small natural numbers (used by the
  nearest-neighbour loops) is modelled as iteration in increasing
  order; the properties proved do not depend on the iteration order.
-/

/-- A delivery point as built by `_validate_and_filter_waypoints`
(route_optimizer.py lines 159-198): a stable order id plus the x
(longitude) and y (latitude) coordinate.  The free-form address and
contact fields are carried through opaquely by the code and are
irrelevant to every claim, so they are omitted. -/
structure Point where
  pid : ℕ
  x : ℚ
  y : ℚ
deriving DecidableEq, Repr

/-- The coordinate pair of a point, as passed to calculate_distance. -/
def pointCoord (p : Point) : ℚ × ℚ := (p.x, p.y)

/-- The type of the opaque distance function standing for
`CoordinateValidator.calculate_distance` (metres). -/
abbrev DistanceFn := ℚ × ℚ → ℚ × ℚ → ℚ

/-- Default point used only to give total Lean functions a value on
branches the Python code cannot reach (it would raise there). -/
def defaultPoint : Point := ⟨0, 0, 0⟩

/-- The dataclass GlobalRouteCluster (global_route_optimizer.py lines
15-22). -/
structure GlobalRouteCluster where
  cid : ℤ
  waypoints : List Point
  startPoint : Point
  endPoint : Point
  internalDistance : ℚ
deriving DecidableEq, Repr

/-- Strict comparison on `Option ℚ` where `none` plays the role of the
Python initial value float infinity: a finite value is smaller than
infinity, infinity is smaller than nothing. -/
def infLt : Option ℚ → Option ℚ → Bool
  | none, _ => false
  | some _, none => true
  | some a, some b => decide (a < b)

/-- Strict greater-than on `Option ℚ` with `none` as infinity. -/
def infGt : Option ℚ → Option ℚ → Bool
  | none, none => false
  | none, some _ => true
  | some _, none => false
  | some a, some b => decide (b < a)

/-- Running minimum against `Option ℚ` with `none` as infinity. -/
def infMin (m : Option ℚ) (x : Option ℚ) : Option ℚ :=
  match m, x with
  | none, x => x
  | some a, none => some a
  | some a, some b => some (min a b)

/-- First minimiser of `f` over `h :: t`: the Python pattern
`best = h; for a in t: if f(a) < f(best): best = a`, which is also how
`min(xs, key=f)` breaks ties (first minimum wins). -/
def argminD {α : Type} (f : α → ℚ) (h : α) (t : List α) : α :=
  t.foldl (fun b a => if f a < f b then a else b) h

/-- First minimiser for an `Option ℚ`-valued key with `none` as
infinity. -/
def argminInfD {α : Type} (f : α → Option ℚ) (h : α) (t : List α) : α :=
  t.foldl (fun b a => if infLt (f a) (f b) then a else b) h

/-! ## Directions provider wire model

The fields of a provider response that the code inspects
(global_route_optimizer.py lines 329-463 and 498-561,
kakao_api_client.py lines 79-156). -/

/-- A summary object carrying duration (seconds) and distance
(metres). -/
structure RouteSummaryData where
  duration : ℚ
  distance : ℚ
deriving DecidableEq, Repr

/-- The first element of the routes array: its result_code, its
optional summary object and its sections array, each section carrying
an optional summary of its own. -/
structure KakaoRoute where
  resultCode : ℤ
  summary : Option RouteSummaryData
  sections : List (Option RouteSummaryData)
deriving DecidableEq, Repr

/-- One attempt's outcome on the wire: an HTTP response with a status
code and a (possibly empty) routes array, a timeout, or another
network error.  A missing routes key and an empty routes array are
handled identically by the code and are both modelled by `[]`. -/
inductive ApiResponse where
  | http (status : ℕ) (routes : List KakaoRoute)
  | timeout
  | netError
deriving DecidableEq, Repr

/-- Sum of the section summaries (global_route_optimizer.py lines
366-373 and 528-535): sections lacking a summary key contribute
nothing. -/
def sectionTotals (sections : List (Option RouteSummaryData)) : ℚ × ℚ :=
  sections.foldl
    (fun acc sec =>
      match sec with
      | some s => (acc.1 + s.duration, acc.2 + s.distance)
      | none => acc)
    (0, 0)

/-- Duration (seconds) and distance (metres) extracted from a route:
the summary object if present, otherwise the sum of the section
summaries if the sections array is non-empty, otherwise nothing
(global_route_optimizer.py lines 360-380 and 522-541). -/
def extractRouteMeasurement (r : KakaoRoute) : Option (ℚ × ℚ) :=
  match r.summary with
  | some s => some (s.duration, s.distance)
  | none =>
    if r.sections.length > 0 then some (sectionTotals r.sections) else none

/-- The generic backoff sleep of `_call_kakao_api_with_retry` (line
462-463): 2 to the attempt seconds, performed only before a retry,
i.e. when further attempts remain. -/
def backoffWaitSeconds (attempt : ℕ) : ℚ :=
  if attempt < 2 then (2 : ℚ) ^ attempt else 0

/-- Outcome of a single attempt inside a retried call: either the call
returns a (duration in minutes, distance in km) pair, or the attempt
fails and the caller sleeps for the given number of seconds before the
next attempt (0 when the code retries immediately or when no retry
remains). -/
inductive AttemptStep where
  | success (durationMinutes : ℚ) (distanceKm : ℚ)
  | failure (waitSeconds : ℚ)
deriving DecidableEq, Repr

/-- One attempt of `_call_kakao_api_with_retry`
(global_route_optimizer.py lines 318-463), as a function of the
attempt index and the wire response:

* HTTP 200 with a non-empty routes array:
  - result_code 104 returns the degenerate pair 30 s, 10 m
    immediately (lines 339-351);
  - any other non-zero result_code retries immediately with no sleep
    (lines 353-358, the continue skips the backoff sleep);
  - a route with neither summary nor sections retries immediately
    with no sleep (lines 375-380);
  - otherwise the measurement is converted to minutes and km; a
    critical implausibility (non-positive duration, distance over
    1000 km, or computed speed over 800 km/h) on the first attempt
    sleeps 2 s and retries (lines 389-425); otherwise the values are
    returned.
* HTTP 200 with an empty routes array falls through to the generic
  backoff sleep (lines 439-441).
* HTTP 429 sleeps a fixed 5 s (lines 443-447).
* Any other HTTP status, a timeout or another error falls through to
  the generic backoff sleep (lines 449-463). -/
def clusterAttemptStep (attempt : ℕ) (resp : ApiResponse) : AttemptStep :=
  match resp with
  | .http status routes =>
    if status = 200 then
      match routes with
      | [] => .failure (backoffWaitSeconds attempt)
      | route :: _ =>
        if route.resultCode = 104 then .success (30 / 60) (10 / 1000)
        else if route.resultCode ≠ 0 then .failure 0
        else
          match extractRouteMeasurement route with
          | none => .failure 0
          | some (durSec, distM) =>
            let duration := durSec / 60
            let distance := distM / 1000
            let critical :=
              durSec ≤ 0 ∨ distance > 1000 ∨
                (duration > 0 ∧ distance > 0 ∧
                  distance / duration * 60 > 800 ∧ attempt = 0)
            if critical ∧ attempt = 0 then .failure 2
            else .success duration distance
    else if status = 429 then .failure 5
    else .failure (backoffWaitSeconds attempt)
  | .timeout => .failure (backoffWaitSeconds attempt)
  | .netError => .failure (backoffWaitSeconds attempt)

/-- Result of a retried per-cluster call: the returned pair if some
attempt succeeded (`none` models the exception raised after all
retries fail, line 467), the number of attempts actually made, and the
sleeps performed after failed attempts, in order. -/
structure RetryOutcome where
  result : Option (ℚ × ℚ)
  attempts : ℕ
  waits : List ℚ
deriving DecidableEq, Repr

/-- The retry loop `for attempt in range(max_retries)` of
`_call_kakao_api_with_retry`, with `script` giving the wire response
of each attempt. -/
def runClusterRetryAux (script : ℕ → ApiResponse) :
    ℕ → ℕ → RetryOutcome
  | _, 0 => ⟨none, 0, []⟩
  | attempt, remaining + 1 =>
    match clusterAttemptStep attempt (script attempt) with
    | .success t dist => ⟨some (t, dist), 1, []⟩
    | .failure w =>
      let rest := runClusterRetryAux script (attempt + 1) remaining
      ⟨rest.result, rest.attempts + 1, w :: rest.waits⟩

/-- A full per-cluster call: at most 3 attempts (max_retries = 3, line
280). -/
def runClusterRetry (script : ℕ → ApiResponse) : RetryOutcome :=
  runClusterRetryAux script 0 3

/-- Outcome of a single attempt of the inter-cluster hop call
`_calculate_cluster_connection_time`: success, a failure with a sleep,
or an uncaught exception (the code indexes `data['routes'][0]` without
guarding, so an empty routes array crashes the scenario). -/
inductive HopStep where
  | success (durationMinutes : ℚ) (distanceKm : ℚ)
  | failure (waitSeconds : ℚ)
  | crash
deriving DecidableEq, Repr

/-- One attempt of `_calculate_cluster_connection_time`
(global_route_optimizer.py lines 498-561):

* HTTP 200: empty routes array crashes; result_code 104 returns
  `0.5 / 60` minutes and 0.01 km (line 516); other non-zero
  result_codes retry with no sleep (lines 517-520); missing
  summary and sections retry with no sleep (lines 537-541); otherwise
  the measurement is returned converted to minutes and km.
* HTTP 429 sleeps 2 to the attempt seconds (lines 550-554).
* Other HTTP statuses retry with no sleep (lines 555-556).
* A network exception sleeps 1 s unless this was the final attempt
  (lines 558-561). -/
def hopAttemptStep (attempt : ℕ) (resp : ApiResponse) : HopStep :=
  match resp with
  | .http status routes =>
    if status = 200 then
      match routes with
      | [] => .crash
      | route :: _ =>
        if route.resultCode = 104 then .success (1 / 2 / 60) (1 / 100)
        else if route.resultCode ≠ 0 then .failure 0
        else
          match extractRouteMeasurement route with
          | none => .failure 0
          | some (durSec, distM) => .success (durSec / 60) (distM / 1000)
    else if status = 429 then .failure ((2 : ℚ) ^ attempt)
    else .failure 0
  | .timeout => .failure (if attempt < 2 then 1 else 0)
  | .netError => .failure (if attempt < 2 then 1 else 0)

/-- Final outcome of a hop call: a measured pair, the straight-line
fallback estimate after all attempts fail, or a crash. -/
inductive HopOutcome where
  | measured (durationMinutes : ℚ) (distanceKm : ℚ)
  | estimated (durationMinutes : ℚ) (distanceKm : ℚ)
  | crashed
deriving DecidableEq, Repr

/-- Result of a retried hop call with its attempt count and sleeps. -/
structure HopResult where
  outcome : HopOutcome
  attempts : ℕ
  waits : List ℚ
deriving DecidableEq, Repr

/-- The straight-line fallback of the hop call (lines 563-573): the
distance between the two endpoints times the road factor 1.3,
converted to km, at 30 km/h (0.5 km per minute). -/
def hopFallbackEstimate (d : DistanceFn) (fromEnd toStart : ℚ × ℚ) :
    ℚ × ℚ :=
  let estKm := d fromEnd toStart * (13 / 10) / 1000
  (estKm / (1 / 2), estKm)

/-- The hop retry loop `for attempt in range(3)`. -/
def runHopRetryAux (d : DistanceFn) (fromEnd toStart : ℚ × ℚ)
    (script : ℕ → ApiResponse) : ℕ → ℕ → HopResult
  | _, 0 =>
    let est := hopFallbackEstimate d fromEnd toStart
    ⟨.estimated est.1 est.2, 0, []⟩
  | attempt, remaining + 1 =>
    match hopAttemptStep attempt (script attempt) with
    | .success t dist => ⟨.measured t dist, 1, []⟩
    | .crash => ⟨.crashed, 1, []⟩
    | .failure w =>
      let rest := runHopRetryAux d fromEnd toStart script (attempt + 1) remaining
      ⟨rest.outcome, rest.attempts + 1, w :: rest.waits⟩

/-- A full inter-cluster hop call: at most 3 attempts, then the
straight-line fallback. -/
def runHopRetry (d : DistanceFn) (fromEnd toStart : ℚ × ℚ)
    (script : ℕ → ApiResponse) : HopResult :=
  runHopRetryAux d fromEnd toStart script 0 3

/-! ## The public client KakaoRouteApiClient (kakao_api_client.py) -/

/-- Classified failures raised by the public client. -/
inductive ClientError where
  | invalidRequest
  | authFailure
  | forbidden
  | rateLimited
  | serverError
  | httpOther
  | networkError
  | noRoutes
  | routeNotFound
  | roadSearchFailed
  | providerError (code : ℤ)
deriving DecidableEq, Repr

/-- `_handle_http_error` (kakao_api_client.py lines 113-135): every
non-200 status raises a classified error. -/
def handleHttpError (status : ℕ) : ClientError :=
  if status = 400 then .invalidRequest
  else if status = 401 then .authFailure
  else if status = 403 then .forbidden
  else if status = 429 then .rateLimited
  else if status ≥ 500 then .serverError
  else .httpOther

/-- `_validate_api_response` (kakao_api_client.py lines 137-156):
raises when the routes array is missing or empty, and raises for every
non-zero result_code of the first route - result_code 1,
result_codes 101 to 107 (which include 104) and all others each hit a
raise branch. -/
def validateApiResponse (routes : List KakaoRoute) : Option ClientError :=
  match routes with
  | [] => some .noRoutes
  | route :: _ =>
    if route.resultCode = 0 then none
    else if route.resultCode = 1 then some .routeNotFound
    else if 101 ≤ route.resultCode ∧ route.resultCode ≤ 107 then
      some .roadSearchFailed
    else some (.providerError route.resultCode)

/-- `get_optimized_route` (kakao_api_client.py lines 30-111): a
non-200 status raises via `_handle_http_error`; a 200 response is
validated by `_validate_api_response` and raises on any non-zero
result_code; only a fully valid response is returned.  Network errors
raise. -/
def getOptimizedRoute (resp : ApiResponse) : Except ClientError (List KakaoRoute) :=
  match resp with
  | .http status routes =>
    if status = 200 then
      match validateApiResponse routes with
      | some e => .error e
      | none => .ok routes
    else .error (handleHttpError status)
  | .timeout => .error .networkError
  | .netError => .error .networkError

/-- The per-batch use of the client in `_optimize_single_batch`
(route_optimizer.py lines 548-594): an exception from
`get_optimized_route` is caught and turns the whole batch into a
failed result with an empty waypoint list, so the batch never receives
a measurement. -/
def optimizeSingleBatchViaClient (resp : ApiResponse) :
    Option (List KakaoRoute) :=
  match getOptimizedRoute resp with
  | .ok routes => some routes
  | .error _ => none

/-! ## Scenario measurement and the K sweep (global_route_optimizer.py) -/

/-- The fixed contribution of a single-point cluster in
`_test_real_api_performance` (lines 173-184): 0.5 minutes (30 s) and
0.05 km (50 m). -/
def singlePointDurationMinutes : ℚ := 1 / 2

/-- The fixed distance contribution of a single-point cluster:
0.05 km, i.e. 50 metres (line 177). -/
def singlePointDistanceKm : ℚ := 1 / 20

/-- What one cluster adds to the scenario totals in the measurement
loop of `_test_real_api_performance` (lines 165-193): an empty cluster
is skipped, a single-point cluster contributes the fixed pair with no
API call, and any larger cluster contributes whatever the retried API
call returns (`apiResult` is that returned pair). -/
def clusterContribution (apiResult : ℚ × ℚ) (c : GlobalRouteCluster) :
    ℚ × ℚ :=
  if c.waypoints.length < 1 then (0, 0)
  else if c.waypoints.length = 1 then
    (singlePointDurationMinutes, singlePointDistanceKm)
  else apiResult

/-- One measured clustering scenario as seen by the selection loop of
`_find_optimal_clustering_performance`: the candidate cluster count,
the measured total time (minutes) and distance (km) returned by
`_test_real_api_performance`, and the returned batches of points. -/
structure ScenarioMeasurement where
  numClusters : ℕ
  actualTime : ℚ
  actualDistance : ℚ
  clusters : List (List Point)
deriving DecidableEq, Repr

/-- The candidate scenario's global start-to-end straight-line
distance (lines 96-105): the distance from the first point of the
first batch to the last point of the last batch, infinity (`none`)
when there are fewer than two batches or a boundary batch is empty. -/
def globalStartEndDistance (d : DistanceFn) (clusters : List (List Point)) :
    Option ℚ :=
  if clusters.length > 1 then
    match clusters.head?, clusters.getLast? with
    | some firstBatch, some lastBatch =>
      match firstBatch.head?, lastBatch.getLast? with
      | some gs, some ge => some (d (pointCoord gs) (pointCoord ge))
      | _, _ => none
    | _, _ => none
  else none

/-- The best-so-far state of the selection loop: the incumbent
scenario, `best_actual_time`, and `_best_global_distance` - which the
code sets to `actual_distance * 1000`, the incumbent's measured total
route distance converted from km to metres (line 121), not its
start-to-end straight-line distance. -/
structure BestScenarioState where
  scenario : ScenarioMeasurement
  bestActualTime : ℚ
  bestGlobalDistance : ℚ
deriving DecidableEq, Repr

/-- One iteration of the selection loop (lines 93-121).  With no
incumbent both `best_actual_time` and `_best_global_distance` are
infinity, so the first successful scenario wins through the
strict-time branch.  Against an incumbent, the candidate wins when its
time is strictly smaller, or when the times differ by less than 0.1
minutes and the candidate's global start-to-end distance is smaller
than the stored `_best_global_distance`.  A winner stores its measured
total distance times 1000 as the new `_best_global_distance`. -/
def updateBestScenario (d : DistanceFn) (st : Option BestScenarioState)
    (s : ScenarioMeasurement) : Option BestScenarioState :=
  let gdm := globalStartEndDistance d s.clusters
  let isBetter :=
    match st with
    | none => true
    | some b =>
      if s.actualTime < b.bestActualTime then true
      else if |s.actualTime - b.bestActualTime| < 1 / 10 then
        infLt gdm (some b.bestGlobalDistance)
      else false
  if isBetter then some ⟨s, s.actualTime, s.actualDistance * 1000⟩ else st

/-- The whole selection sweep: the successful scenarios arrive in
increasing order of K and are folded through `updateBestScenario`. -/
def findBestScenario (d : DistanceFn) (ss : List ScenarioMeasurement) :
    Option BestScenarioState :=
  ss.foldl (updateBestScenario d) none

/-- Python `round(n / 2)` for a natural n: `n / 2` is exactly
representable as a float, and Python rounds halves to the nearest even
integer, so an odd n rounds down when `n / 2` truncates to an even
number and up otherwise. -/
def pythonRoundHalf (n : ℕ) : ℕ :=
  if n % 2 = 0 then n / 2
  else if (n / 2) % 2 = 0 then n / 2 else n / 2 + 1

/-- The candidate cluster counts tested by
`_find_optimal_clustering_performance` (lines 73-84):
`range(2, max(2, round(n / 2)) + 1)`, i.e. the increasing list from 2
to `max 2 (round(n / 2))`. -/
def candidateClusterCounts (n : ℕ) : List ℕ :=
  List.range' 2 (max 2 (pythonRoundHalf n) - 1)

/-! ## Per-batch waypoint sequence (route_optimizer.py lines 596-675)
and the Excel assembly (excel_handler.py lines 262-319, 430-457). -/

/-- The fields of one entry of the optimized waypoint sequence that
the claims are about. -/
structure SeqEntry where
  orderId : ℕ
  distanceFromPrev : ℚ
  durationFromPrev : ℚ
  cumulativeDistance : ℚ
  cumulativeDuration : ℚ
deriving DecidableEq, Repr

/-- The middle-waypoint loop of `_build_optimized_waypoint_sequence`
(lines 626-649): waypoint i takes section i of the route details
(a (distance, duration) pair, defaulting to zero when the index is out
of range) and extends the running cumulative values. -/
def buildMiddleEntries (routeDetails : List (ℚ × ℚ)) :
    ℕ → ℚ → ℚ → List Point → List SeqEntry
  | _, _, _, [] => []
  | i, cumD, cumT, w :: ws =>
    let sec := routeDetails.getD i (0, 0)
    let cd := cumD + sec.1
    let ct := cumT + sec.2
    ⟨w.pid, sec.1, sec.2, cd, ct⟩ ::
      buildMiddleEntries routeDetails (i + 1) cd ct ws

/-- `_build_optimized_waypoint_sequence` (lines 596-675): the origin
entry starts the batch with cumulative values zero; each middle
waypoint adds its section; the destination adds the last section of
the route details (the default pair when there are none). -/
def buildOptimizedWaypointSequence (origin destination : Point)
    (middles : List Point) (routeDetails : List (ℚ × ℚ)) : List SeqEntry :=
  let originEntry : SeqEntry := ⟨origin.pid, 0, 0, 0, 0⟩
  let mids := buildMiddleEntries routeDetails 0 0 0 middles
  let cum :=
    (mids.map fun e => (e.cumulativeDistance, e.cumulativeDuration)).getLastD
      (0, 0)
  let fin := routeDetails.getLastD (0, 0)
  originEntry ::
    mids ++ [⟨destination.pid, fin.1, fin.2, cum.1 + fin.1, cum.2 + fin.2⟩]

/-- Input of one batch of a run: origin, destination, middle
waypoints, and the per-section route details of that batch's
directions response. -/
structure BatchSpec where
  origin : Point
  destination : Point
  middles : List Point
  routeDetails : List (ℚ × ℚ)
deriving DecidableEq, Repr

/-- The concatenation of all batches' optimized waypoint sequences in
batch order, exactly as `optimize_route` produces one
`optimized_waypoints` list per batch: each batch is built by a fresh
call of `_build_optimized_waypoint_sequence`. -/
def assembleRunSequences (batches : List BatchSpec) : List SeqEntry :=
  (batches.map fun b =>
    buildOptimizedWaypointSequence b.origin b.destination b.middles
      b.routeDetails).flatten

/-- The per-row leg values of
`_format_optimization_result_with_global_cumulative` (excel_handler.py
lines 271-283): the first row of a batch after the first takes the
inter-batch connection pair, the very first row of the run takes zero,
and every other row takes the entry's own leg values. -/
def excelLegValues (batchNumber idx : ℕ) (connDist connDur : ℚ)
    (e : SeqEntry) : ℚ × ℚ :=
  if idx = 0 ∧ batchNumber > 1 then (connDist, connDur)
  else if idx = 0 then ((0 : ℚ), (0 : ℚ))
  else (e.distanceFromPrev, e.durationFromPrev)

/-- The row loop of `_format_optimization_result_with_global_cumulative`
(excel_handler.py lines 262-319), producing the global cumulative
(distance, duration) of each row before the int() conversion: every
row except the very first of the run adds its leg values to the
running accumulators (lines 285-288).  Returns the rows and the
carried accumulators. -/
def excelRowsQ (batchNumber : ℕ) (connDist connDur : ℚ) :
    ℕ → ℚ → ℚ → List SeqEntry → List (ℚ × ℚ) × ℚ × ℚ
  | _, cd, ct, [] => ([], cd, ct)
  | idx, cd, ct, e :: es =>
    let dfp := excelLegValues batchNumber idx connDist connDur e
    let cd2 := if idx > 0 ∨ batchNumber > 1 then cd + dfp.1 else cd
    let ct2 := if idx > 0 ∨ batchNumber > 1 then ct + dfp.2 else ct
    let rest := excelRowsQ batchNumber connDist connDur (idx + 1) cd2 ct2 es
    ((cd2, ct2) :: rest.1, rest.2)

/-- One successful batch as consumed by `save_optimization_results`:
the inter-batch connection pair stored on the result and the batch's
optimized waypoint entries. -/
structure ExcelBatch where
  connDist : ℚ
  connDur : ℚ
  entries : List SeqEntry
deriving DecidableEq, Repr

/-- The batch loop of `save_optimization_results` (excel_handler.py
lines 430-457): batch numbers count from 1 and the global cumulative
accumulators are threaded from batch to batch, never reset. -/
def saveRowsAux : ℕ → ℚ → ℚ → List ExcelBatch → List (ℚ × ℚ)
  | _, _, _, [] => []
  | bn, cd, ct, b :: bs =>
    let r := excelRowsQ bn b.connDist b.connDur 0 cd ct b.entries
    r.1 ++ saveRowsAux (bn + 1) r.2.1 r.2.2 bs

/-- The full sheet's global cumulative columns before int(). -/
def saveOptimizationRowsQ (batches : List ExcelBatch) : List (ℚ × ℚ) :=
  saveRowsAux 1 0 0 batches

/-- The int() conversion applied to each row (lines 313-314); on the
non-negative values produced under the claims' hypotheses Python int()
truncation coincides with the floor. -/
def saveOptimizationRows (batches : List ExcelBatch) : List (ℤ × ℤ) :=
  (saveOptimizationRowsQ batches).map fun r => (⌊r.1⌋, ⌊r.2⌋)

/-! ## Clustering pipeline (global_route_optimizer.py lines 902-1309) -/

/-- A placeholder cluster for guarded list lookups (the Python code
never reads out of range on the corresponding paths). -/
def defaultCluster : GlobalRouteCluster := ⟨0, [], defaultPoint, defaultPoint, 0⟩

/-- `_check_nearby_waypoints` (lines 1282-1309): detects pairs of
points within the threshold and logs a warning, but deliberately
returns every waypoint unchanged (no data loss). -/
def checkNearbyWaypoints (d : DistanceFn) (minDistance : ℚ)
    (waypoints : List Point) : List Point :=
  waypoints

/-- `_estimate_road_distances` (lines 902-919) read through the
`road_matrix.get((i, j), inf)` convention: straight-line distance
times the road factor 1.3 for two distinct valid indices, 0 on the
diagonal, infinity (`none`) for a missing key. -/
def roadMatrixLookup (d : DistanceFn) (reps : List Point) (i j : ℕ) :
    Option ℚ :=
  if i < reps.length ∧ j < reps.length then
    some
      (if i = j then 0
       else d (pointCoord (reps.getD i defaultPoint))
           (pointCoord (reps.getD j defaultPoint)) * (13 / 10))
  else none

/-- Minimum road distance from a candidate index to the current
centroid indices (lines 1001-1005), starting from infinity. -/
def minDistToCentroids (lookup : ℕ → ℕ → Option ℚ) (centroids : List ℕ)
    (candidate : ℕ) : Option ℚ :=
  centroids.foldl (fun m c => infMin m (lookup candidate c)) none

/-- The farthest-first selection step of `_cluster_representatives`
(lines 994-1012): starting from the first remaining index and a
maximum of 0, keep the candidate whose minimum distance to the chosen
centroids is strictly larger than the best so far. -/
def farthestCandidate (lookup : ℕ → ℕ → Option ℚ) (centroids : List ℕ)
    (remaining : List ℕ) : ℕ :=
  match remaining with
  | [] => 0
  | h :: t =>
    ((h :: t).foldl
      (fun st cand =>
        let md := minDistToCentroids lookup centroids cand
        if infGt md st.2 then (cand, md) else st)
      (h, some (0 : ℚ))).1

/-- The centroid-selection loop of `_cluster_representatives`: run
`k - 1` rounds, each appending the farthest remaining index and
removing it from the remaining pool; stop early when the pool is
empty. -/
def selectCentroidsGo (lookup : ℕ → ℕ → Option ℚ) :
    ℕ → List ℕ → List ℕ → List ℕ
  | 0, centroids, _ => centroids
  | n + 1, centroids, remaining =>
    match remaining with
    | [] => centroids
    | h :: t =>
      let far := farthestCandidate lookup centroids (h :: t)
      selectCentroidsGo lookup n (centroids ++ [far]) ((h :: t).erase far)

/-- Centroid indices chosen by `_cluster_representatives` (lines
986-1012): index 0 first, then `k - 1` farthest-first rounds over the
remaining indices in increasing order. -/
def selectCentroidIdxs (lookup : ℕ → ℕ → Option ℚ) (numReps k : ℕ) :
    List ℕ :=
  selectCentroidsGo lookup (k - 1) [0] ((List.range numReps).erase 0)

/-- Position (within the centroid list) of the centroid closest to a
representative index (lines 1014-1025): first strict minimum, starting
from position 0 and infinity. -/
def closestCentroidPos (lookup : ℕ → ℕ → Option ℚ) (centroids : List ℕ)
    (repIdx : ℕ) : ℕ :=
  (centroids.enum.foldl
    (fun st p => if infLt (lookup repIdx p.2) st.2 then (p.1, lookup repIdx p.2) else st)
    (0, (none : Option ℚ))).1

/-- `_cluster_representatives` (lines 975-1027): when the requested
count is at least the number of representatives, each becomes its own
cluster; otherwise the representatives are assigned to the closest of
the farthest-first centroids and empty groups are dropped. -/
def clusterRepresentatives (d : DistanceFn) (reps : List Point) (k : ℕ) :
    List (List Point) :=
  if k ≥ reps.length then reps.map (fun r => [r])
  else
    let lookup := roadMatrixLookup d reps
    let centroids := selectCentroidIdxs lookup reps.length k
    ((List.range k).map fun cpos =>
        (reps.enum.filter fun p =>
            closestCentroidPos lookup centroids p.1 == cpos).map
          Prod.snd).filter
      fun c => !c.isEmpty

/-- Minimum distance from a waypoint to the members of one
representative cluster (lines 941-947), starting from infinity. -/
def minDistToReps (d : DistanceFn) (wp : Point) (reps : List Point) :
    Option ℚ :=
  reps.foldl (fun m rep => infMin m (some (d (pointCoord wp) (pointCoord rep)))) none

/-- Index of the representative cluster closest to a waypoint (lines
936-951): first strict minimum over the enumerated clusters, starting
from index 0 and infinity. -/
def closestRepCluster (d : DistanceFn) (repClusters : List (List Point))
    (wp : Point) : ℕ :=
  (repClusters.enum.foldl
    (fun st p =>
      let cm := minDistToReps d wp p.2
      if infLt cm st.2 then (p.1, cm) else st)
    (0, (none : Option ℚ))).1

/-- The Nearest Neighbour loop shared by
`_traveling_salesman_approximation` (lines 1254-1280) and
`_traveling_salesman_with_fixed_endpoints` (lines 630-656): repeatedly
move to the closest unvisited point (first minimum in increasing
iteration order) and remove it from the pool.  The fuel argument is
the exact number of loop iterations, the pool size. -/
def nnRouteAux (d : DistanceFn) : ℕ → Point → List Point → List Point
  | 0, _, _ => []
  | _ + 1, _, [] => []
  | fuel + 1, cur, h :: t =>
    let nxt := argminD (fun wp => d (pointCoord cur) (pointCoord wp)) h t
    nxt :: nnRouteAux d fuel nxt ((h :: t).erase nxt)

/-- Nearest-neighbour visiting order of a pool of points from a
current point. -/
def nnRoute (d : DistanceFn) (cur : Point) (remaining : List Point) :
    List Point :=
  nnRouteAux d remaining.length cur remaining

/-- `_traveling_salesman_approximation` (lines 1254-1280): lists of at
most two points are returned unchanged; otherwise the tour starts at
the requested index (0 when out of range) and proceeds by nearest
neighbour over the rest. -/
def tspApproximation (d : DistanceFn) (waypoints : List Point)
    (startIdx : ℕ) : List Point :=
  if waypoints.length ≤ 2 then waypoints
  else
    let s := if startIdx < waypoints.length then startIdx else 0
    match waypoints[s]? with
    | none => waypoints
    | some start => start :: nnRoute d start (waypoints.eraseIdx s)

/-- The contiguous slices taken by `_split_large_cluster` (lines
1054-1064): `waypoints_per_cluster` points per slice, with the last
slice taking everything that remains. -/
def sliceChunks (ordered : List Point) (numSub wpc : ℕ) :
    List (List Point) :=
  (List.range numSub).map fun i =>
    if i = numSub - 1 then ordered.drop (i * wpc)
    else (ordered.drop (i * wpc)).take wpc

/-- `_split_large_cluster` (lines 1046-1074): order the members by a
nearest-neighbour tour from index 0, cut the tour into
`ceil(len / 30)` contiguous slices of `len // ceil(len / 30)` points
(the last slice takes the remainder), and make each non-empty slice a
cluster whose start and end are its first and last member. -/
def splitLargeCluster (d : DistanceFn) (c : GlobalRouteCluster) :
    List GlobalRouteCluster :=
  let numSub := (c.waypoints.length + 30 - 1) / 30
  let ordered := tspApproximation d c.waypoints 0
  let wpc := ordered.length / numSub
  (sliceChunks ordered numSub wpc).enum.filterMap fun p =>
    match p.2 with
    | [] => none
    | w :: ws =>
      some ⟨c.cid * 100 + (p.1 : ℤ), w :: ws, w, (w :: ws).getLast (by simp), 0⟩

/-- `_balance_cluster_sizes` (lines 1029-1044): clusters above the
30-member batch limit are split, the others pass through. -/
def balanceClusterSizes (d : DistanceFn)
    (clusters : List GlobalRouteCluster) : List GlobalRouteCluster :=
  (clusters.map fun c =>
    if c.waypoints.length > 30 then splitLargeCluster d c else [c]).flatten

/-- `_road_aware_clustering` (lines 921-973) with all points as their
own representatives, as `_test_real_api_performance` calls it (lines
146-150): every waypoint joins the fiber of its closest
representative cluster, non-empty fibers become clusters whose
temporary start and end are their first and last member, and the
result is size-balanced. -/
def roadAwareClustering (d : DistanceFn) (waypoints : List Point)
    (numClusters : ℕ) : List GlobalRouteCluster :=
  let repClusters := clusterRepresentatives d waypoints numClusters
  let raw := (List.range repClusters.length).filterMap fun cid =>
    match waypoints.filter (fun wp => closestRepCluster d repClusters wp == cid) with
    | [] => none
    | w :: ws =>
      let merged := checkNearbyWaypoints d 10 (w :: ws)
      some ⟨(cid : ℤ), merged, merged.headD defaultPoint,
        merged.getLastD defaultPoint, 0⟩
  balanceClusterSizes d (raw.filter fun c => !c.waypoints.isEmpty)

/-- `_get_cluster_center` (lines 1110-1117): the coordinate mean of
the members, (0, 0) for an empty cluster. -/
def getClusterCenter (c : GlobalRouteCluster) : ℚ × ℚ :=
  if c.waypoints.isEmpty then (0, 0)
  else
    ((c.waypoints.map Point.x).sum / c.waypoints.length,
     (c.waypoints.map Point.y).sum / c.waypoints.length)

/-- The `cluster_distances` dictionary of `_optimize_cluster_sequence`
(lines 1082-1089) read through `get((i, j), default)`: centre-to-centre
distance for distinct valid indices, a missing key (`none`)
otherwise. -/
def clusterDistLookup (d : DistanceFn)
    (clusters : List GlobalRouteCluster) (i j : ℕ) : Option ℚ :=
  if i ≠ j ∧ i < clusters.length ∧ j < clusters.length then
    some (d (getClusterCenter (clusters.getD i defaultCluster))
        (getClusterCenter (clusters.getD j defaultCluster)))
  else none

/-- `_calculate_cluster_sequence_distance` (lines 1137-1143): the sum
over adjacent pairs, a missing key counting 0. -/
def clusterSeqDistance (lookup : ℕ → ℕ → Option ℚ) (seqn : List ℕ) : ℚ :=
  (seqn.zip seqn.tail).foldl (fun acc p => acc + (lookup p.1 p.2).getD 0) 0

/-- The nearest-neighbour loop of `_cluster_tsp_approximation` (lines
1119-1135) over cluster indices, with missing keys as infinity. -/
def nnIdxRouteAux (lookup : ℕ → ℕ → Option ℚ) :
    ℕ → ℕ → List ℕ → List ℕ
  | 0, _, _ => []
  | _ + 1, _, [] => []
  | fuel + 1, cur, h :: t =>
    let nxt := argminInfD (fun j => lookup cur j) h t
    nxt :: nnIdxRouteAux lookup fuel nxt ((h :: t).erase nxt)

/-- Nearest-neighbour order over cluster indices. -/
def nnIdxRoute (lookup : ℕ → ℕ → Option ℚ) (cur : ℕ)
    (remaining : List ℕ) : List ℕ :=
  nnIdxRouteAux lookup remaining.length cur remaining

/-- `_cluster_tsp_approximation` from a given start index over the
index set `range n` in increasing iteration order. -/
def clusterTspApproximation (lookup : ℕ → ℕ → Option ℚ) (n startIdx : ℕ) :
    List ℕ :=
  startIdx :: nnIdxRoute lookup startIdx ((List.range n).erase startIdx)

/-- `_optimize_cluster_sequence` (lines 1076-1108): at most two
clusters pass through unchanged; otherwise the identity order competes
against a nearest-neighbour tour from every start index and the
strictly best total connection distance wins, earlier start index on
ties; the clusters are then re-indexed by the winning order. -/
def optimizeClusterSequence (d : DistanceFn)
    (clusters : List GlobalRouteCluster) : List GlobalRouteCluster :=
  if clusters.length ≤ 2 then clusters
  else
    let lookup := clusterDistLookup d clusters
    let base := List.range clusters.length
    let best := (List.range clusters.length).foldl
      (fun best s =>
        let seqn := clusterTspApproximation lookup clusters.length s
        if clusterSeqDistance lookup seqn < clusterSeqDistance lookup best then
          seqn
        else best)
      base
    best.filterMap fun i => clusters[i]?

/-- `_find_closest_point_to_cluster` (lines 1185-1201): the first
member minimising the distance to the target cluster's centre. -/
def findClosestPointToCluster (d : DistanceFn) (points : List Point)
    (target : GlobalRouteCluster) : Point :=
  match points with
  | [] => defaultPoint
  | h :: t => argminD (fun p => d (pointCoord p) (getClusterCenter target)) h t

/-- `_optimize_cluster_connections` (lines 1145-1183): the first
cluster's exit points toward the next cluster (or, for a single
cluster, start and end become the first and last member), the last
cluster's entry points toward the previous cluster, and middle
clusters get both.  Memberships are never changed. -/
def optimizeClusterConnections (d : DistanceFn)
    (cs : List GlobalRouteCluster) : List GlobalRouteCluster :=
  cs.enum.map fun p =>
    let i := p.1
    let c := p.2
    if i = 0 then
      if cs.length > 1 then
        { c with endPoint := findClosestPointToCluster d c.waypoints (cs.getD 1 defaultCluster) }
      else
        { c with startPoint := c.waypoints.headD c.startPoint,
                 endPoint := c.waypoints.getLastD c.endPoint }
    else if i = cs.length - 1 then
      { c with startPoint := findClosestPointToCluster d c.waypoints (cs.getD (i - 1) defaultCluster) }
    else
      { c with startPoint := findClosestPointToCluster d c.waypoints (cs.getD (i - 1) defaultCluster),
               endPoint := findClosestPointToCluster d c.waypoints (cs.getD (i + 1) defaultCluster) }

/-- The candidate enumeration of `_optimize_global_start_end` (lines
1236-1245): all (first-cluster member, last-cluster member) pairs in
nested-loop order, strict improvement over the incumbent pair. -/
def bestGlobalPair (d : DistanceFn) (fc lc : GlobalRouteCluster) :
    Point × Point :=
  ((fc.waypoints.product lc.waypoints).foldl
    (fun st p =>
      let dist := d (pointCoord p.1) (pointCoord p.2)
      if infLt (some dist) st.2 then (p, some dist) else st)
    ((fc.startPoint, lc.endPoint), (none : Option ℚ))).1

/-- `_optimize_global_start_end` (lines 1223-1252): with at least two
clusters, overwrite the first cluster's start and the last cluster's
end with the member pair minimising their straight-line distance.
Memberships are never changed. -/
def optimizeGlobalStartEnd (d : DistanceFn)
    (cs : List GlobalRouteCluster) : List GlobalRouteCluster :=
  if cs.length ≤ 1 then cs
  else
    let fc := cs.headD defaultCluster
    let lc := cs.getLastD defaultCluster
    let pair := bestGlobalPair d fc lc
    let cs2 := cs.modifyHead fun c => { c with startPoint := pair.1 }
    cs2.dropLast ++ [{ cs2.getLastD defaultCluster with endPoint := pair.2 }]

/-- `_traveling_salesman_with_fixed_endpoints` (lines 630-656): an
empty middle yields nothing, a singleton is returned as is, and
otherwise the middle points are ordered by nearest neighbour from the
start point (the end point takes no part in the tour). -/
def tspFixedEndpoints (d : DistanceFn) (s : Point) (middle : List Point)
    (e : Point) : List Point :=
  if middle.isEmpty then []
  else if middle.length = 1 then middle
  else nnRoute d s middle

/-- `_optimize_cluster_internal_order` (lines 575-628): clusters of at
most three points pass through; otherwise the members whose id differs
from both endpoints' ids are toured by nearest neighbour from the
start; when start and end share an id the end is not re-appended; a
result of the wrong length is discarded in favour of the original
order (the safety net of lines 619-625). -/
def optimizeClusterInternalOrder (d : DistanceFn)
    (c : GlobalRouteCluster) : List Point :=
  let waypoints := c.waypoints
  if waypoints.length ≤ 2 then waypoints
  else if waypoints.length = 3 then waypoints
  else
    let s := c.startPoint
    let e := c.endPoint
    let middle := waypoints.filter fun w => w.pid != s.pid && w.pid != e.pid
    if middle.isEmpty then [s, e]
    else
      let mid := tspFixedEndpoints d s middle e
      let result := if s.pid = e.pid then s :: mid else s :: mid ++ [e]
      if result.length = waypoints.length then result else waypoints

/-- The plan built by `_test_real_api_performance` before measurement
(lines 146-155): clustering, cluster sequencing, connection points,
then the global start-end closure. -/
def finalClusters (d : DistanceFn) (waypoints : List Point)
    (numClusters : ℕ) : List GlobalRouteCluster :=
  optimizeGlobalStartEnd d
    (optimizeClusterConnections d
      (optimizeClusterSequence d (roadAwareClustering d waypoints numClusters)))

/-- What one cluster contributes to `result_clusters` in the
measurement loop (lines 165-193): empty clusters are skipped,
single-point clusters are appended as they are, and larger clusters
are appended in the internal order installed by
`_call_kakao_api_with_retry` (line 287). -/
def measuredBatch (d : DistanceFn) (c : GlobalRouteCluster) :
    Option (List Point) :=
  if c.waypoints.length < 1 then none
  else if c.waypoints.length = 1 then some c.waypoints
  else some (optimizeClusterInternalOrder d c)

/-- The batches returned by a successful `_test_real_api_performance`
run for a candidate cluster count. -/
def resultClusters (d : DistanceFn) (waypoints : List Point)
    (numClusters : ℕ) : List (List Point) :=
  (finalClusters d waypoints numClusters).filterMap (measuredBatch d)

/-! ## Concrete instances used by witnesses and counterexamples -/

/-- The batch limit of the provider, MAX_WAYPOINTS_PER_BATCH (line
40). -/
def maxWaypointsPerBatch : ℕ := 30

/-- A concrete computable distance function for witnesses: the
taxicab distance on the coordinate plane. -/
def dAbs : DistanceFn := fun a b => |a.1 - b.1| + |a.2 - b.2|

/-- Eighty-nine points on a line, pairwise distinct ids. -/
def pts89 : List Point := (List.range 89).map fun i => ⟨i, (i : ℚ), 0⟩

/-- A single cluster holding all 89 points, as `_road_aware_clustering`
can produce it (for example two geographic clumps of 89 points each
under K = 2, or 89 coincident points). -/
def cluster89 : GlobalRouteCluster := ⟨0, pts89, ⟨0, 0, 0⟩, ⟨88, 88, 0⟩, 0⟩

/-- Four valid points with distinct ids for the conservation witness. -/
def wps4 : List Point := [⟨0, 0, 0⟩, ⟨1, 1, 0⟩, ⟨2, 100, 0⟩, ⟨3, 101, 0⟩]

/-- Incumbent scenario for the selection divergence: K = 2, measured
10 minutes, measured 2 km total, global start-to-end straight-line
distance 500 m. -/
def scenarioK2 : ScenarioMeasurement :=
  ⟨2, 10, 2, [[⟨0, 0, 0⟩], [⟨1, 500, 0⟩]]⟩

/-- Candidate scenario: K = 3, measured 10.05 minutes (within 0.1
minutes of the incumbent), global start-to-end straight-line distance
1500 m - strictly worse closure than the incumbent's 500 m. -/
def scenarioK3 : ScenarioMeasurement :=
  ⟨3, 10 + 1 / 20, 3, [[⟨0, 0, 0⟩], [⟨2, 9, 9⟩], [⟨1, 1500, 0⟩]]⟩

/-- An HTTP 200 response whose first route reports result_code 104. -/
def route104 : KakaoRoute := ⟨104, none, []⟩

/-- The wire response carrying `route104`. -/
def resp104 : ApiResponse := .http 200 [route104]

/-- A single-point cluster for the degenerate-contribution claims. -/
def singleCluster : GlobalRouteCluster := ⟨0, [⟨5, 127, 37⟩], ⟨5, 127, 37⟩, ⟨5, 127, 37⟩, 0⟩

/-- First batch of the cumulative-reset counterexample: two points,
one section of 100 m and 200 s. -/
def batchA : BatchSpec := ⟨⟨0, 0, 0⟩, ⟨1, 1, 0⟩, [], [(100, 200)]⟩

/-- Second batch of the cumulative-reset counterexample. -/
def batchB : BatchSpec := ⟨⟨2, 2, 0⟩, ⟨3, 3, 0⟩, [], [(50, 70)]⟩

/-- Non-negativity of everything a batch feeds into the Excel
assembly: its connection pair and the per-entry leg values. -/
def batchNonneg (b : ExcelBatch) : Prop :=
  0 ≤ b.connDist ∧ 0 ≤ b.connDur ∧
    ∀ e ∈ b.entries, 0 ≤ e.distanceFromPrev ∧ 0 ≤ e.durationFromPrev

/-- The excel batches of the claim 4 witness, built from the two
counterexample batches with a 40 m connection leg. -/
def excelBatchA : ExcelBatch :=
  ⟨0, 0, buildOptimizedWaypointSequence ⟨0, 0, 0⟩ ⟨1, 1, 0⟩ [] [(100, 200)]⟩

/-- Second excel batch of the claim 4 witness. -/
def excelBatchB : ExcelBatch :=
  ⟨40, 0, buildOptimizedWaypointSequence ⟨2, 2, 0⟩ ⟨3, 3, 0⟩ [] [(50, 70)]⟩

/-- The cumulative pair of a sequence entry. -/
def cumPair (e : SeqEntry) : ℚ × ℚ := (e.cumulativeDistance, e.cumulativeDuration)

/-- Componentwise order on cumulative pairs. -/
def pairLe (a b : ℚ × ℚ) : Prop := a.1 ≤ b.1 ∧ a.2 ≤ b.2

/-- A constant-zero distance instance for counterexamples whose
property does not depend on the metric (nearest-neighbour tie-breaks
then follow iteration order). -/
def dConstZero : DistanceFn := fun _ _ => 0

/-- A distance instance reading off the second point's x coordinate,
used to give the selection counterexample explicit start-to-end
distances. -/
def dSecondX : DistanceFn := fun _ b => b.1

/-! ## Claim theorems -/

/-- Claim C1 (code_bug evidence).  Two successive scenarios whose
measured times differ by 0.05 minutes, inside the 0.1-minute tie
window: the incumbent K = 2 has global start-to-end straight-line
distance 500 m and measured total distance 2 km, the candidate K = 3
has start-to-end distance 1500 m - three times worse closure - and a
strictly larger measured time.  The claimed rule keeps K = 2, but the
code promotes K = 3 and stores 3000 as the new
`_best_global_distance`: the tie-break compared the candidate's
start-to-end distance (1500) against the stored value 2000, which line
121 filled with the incumbent's measured total route distance in
metres (2 km times 1000), not with the incumbent's 500 m start-to-end
distance. -/
theorem claim1_selection_tiebreak_divergence :
    findBestScenario dSecondX [scenarioK2, scenarioK3] =
        some ⟨scenarioK3, 201 / 20, 3000⟩ ∧
      globalStartEndDistance dSecondX scenarioK2.clusters = some 500 ∧
      globalStartEndDistance dSecondX scenarioK3.clusters = some 1500 ∧
      scenarioK2.actualTime < scenarioK3.actualTime ∧
      |scenarioK3.actualTime - scenarioK2.actualTime| < 1 / 10 := by
  refine ⟨?_, ?_, ?_, ?_, ?_⟩
  · norm_num [findBestScenario, updateBestScenario, globalStartEndDistance,
      scenarioK2, scenarioK3, pointCoord, infLt, dSecondX]
    rw [abs_of_pos (by norm_num : (0 : ℚ) < 1 / 20)]
    norm_num
  · norm_num [globalStartEndDistance, scenarioK2, pointCoord, dSecondX]
  · norm_num [globalStartEndDistance, scenarioK3, pointCoord, dSecondX]
  · norm_num [scenarioK2, scenarioK3]
  · norm_num [scenarioK2, scenarioK3]
    rw [abs_of_pos (by norm_num : (0 : ℚ) < 1 / 20)]
    norm_num

/-- Claim C3 (code_bug evidence).  Balancing a single cluster of 89
members splits it into slices of 29, 29 and 31 members - the last
slice exceeds the 30-member batch limit the splitting is meant to
enforce (`ceil(89 / 30) = 3` sub-clusters of `89 // 3 = 29` points,
the last taking the remaining 31). -/
theorem claim3_split_exceeds_limit :
    (balanceClusterSizes dConstZero [cluster89]).map
        (fun c => c.waypoints.length) = [29, 29, 31] ∧
      ∃ c ∈ balanceClusterSizes dConstZero [cluster89],
        maxWaypointsPerBatch < c.waypoints.length := by
  decide

/-- Claim C4 counterexample.  Concatenating the optimized waypoint
sequences of two batches (first batch: one 200 s leg; second batch:
one 70 s leg): the cumulative durations along the concatenation read
0, 200, 0, 70.  The first waypoint of the second batch carries
cumulative 0, strictly below the 200 of the last waypoint of the
first batch: the field is reset at the cluster boundary and the
sequence is not non-decreasing. -/
theorem claim4_cumulative_reset_counterexample :
    ((assembleRunSequences [batchA, batchB]).map
        fun e => e.cumulativeDuration) = [0, 200, 0, 70] ∧
      ¬List.Chain' (· ≤ ·)
        ((assembleRunSequences [batchA, batchB]).map
          fun e => e.cumulativeDuration) := by
  constructor
  · simp [assembleRunSequences, batchA, batchB, buildOptimizedWaypointSequence,
      buildMiddleEntries]
  · simp [assembleRunSequences, batchA, batchB, buildOptimizedWaypointSequence,
      buildMiddleEntries, List.chain'_cons]

/-- Claim C5 counterexample.  A single-point cluster contributes
exactly 0.5 minutes (30 s, as claimed) and 0.05 km - which is
50 metres, not the 10 metres (0.01 km) the claim states. -/
theorem claim5_single_point_distance_counterexample :
    clusterContribution (7, 9) singleCluster =
        (singlePointDurationMinutes, singlePointDistanceKm) ∧
      singlePointDistanceKm = 50 / 1000 ∧
      singlePointDistanceKm ≠ 10 / 1000 := by
  refine ⟨by simp [clusterContribution, singleCluster], ?_, ?_⟩
  · norm_num [singlePointDistanceKm]
  · norm_num [singlePointDistanceKm]

/-- Claim C5 amended: a cluster with exactly one point contributes
exactly 30 seconds (0.5 minutes) and 50 metres (0.05 km) to the
scenario totals, and the contribution is independent of whatever the
directions API would have returned for it - no API call is issued. -/
theorem claim5_amended (api1 api2 : ℚ × ℚ) (c : GlobalRouteCluster)
    (h : c.waypoints.length = 1) :
    clusterContribution api1 c =
        (singlePointDurationMinutes, singlePointDistanceKm) ∧
      clusterContribution api1 c = clusterContribution api2 c := by
  unfold clusterContribution
  simp [h]

/-- Witness for `claim5_amended` at a concrete single-point cluster
and two different would-be API results. -/
theorem claim5_amended_witness :
    singleCluster.waypoints.length = 1 ∧
      clusterContribution (3, 4) singleCluster =
          (singlePointDurationMinutes, singlePointDistanceKm) ∧
        clusterContribution (3, 4) singleCluster =
          clusterContribution (8, 1) singleCluster :=
  ⟨by simp [singleCluster], claim5_amended (3, 4) (8, 1) singleCluster (by simp [singleCluster])⟩

/-- Claim C6 (code_bug evidence).  An inter-cluster hop whose response
reports result_code 104 returns duration `0.5 / 60` minutes - that is
1/120 of a minute, half a second, not the 30 seconds (`30 / 60`
minutes) stated by the claim and by the comment on the return line
itself (line 516, 30초 10미터); the 10 m (0.01 km) distance component
is as claimed.  No retry is made (the value is returned), matching the
claim's retry part. -/
theorem claim6_hop_degenerate_duration_bug :
    hopAttemptStep 0 (.http 200 [route104]) = .success (1 / 2 / 60) (1 / 100) ∧
      (1 / 2 / 60 : ℚ) = 1 / 120 ∧
      (1 / 120 : ℚ) ≠ 30 / 60 := by
  refine ⟨rfl, by norm_num, by norm_num⟩

/-- Claim C7 (code_bug evidence).  For N = 5 points the code tests
only K = 2: Python `round(5 / 2)` rounds the half to the even value 2,
while the claim - and the intent of the comment on line 75, round up
on odd counts - requires the sweep to reach `max 2 ⌈5 / 2⌉ = 3`. -/
theorem claim7_candidate_counts_bug :
    candidateClusterCounts 5 = [2] ∧
      (5 + 1) / 2 = 3 ∧
      3 ∉ candidateClusterCounts 5 := by
  decide

/-- A 200 response whose first route reports result_code 104 makes the
per-cluster call return the degenerate pair at once, whatever the
attempt index. -/
theorem clusterStep_resultCode104 (a : ℕ) (route : KakaoRoute)
    (rest : List KakaoRoute) (h : route.resultCode = 104) :
    clusterAttemptStep a (.http 200 (route :: rest)) =
      .success (30 / 60) (10 / 1000) := by
  simp [clusterAttemptStep, h]

/-- Claim C8: when attempt k of a per-cluster directions call receives
an HTTP 200 response whose first route has result_code 104, after any
k failed attempts, the call returns exactly 30 seconds (30/60 minutes)
and 10 metres (10/1000 km) and makes no further attempt: exactly
k + 1 attempts in total. -/
theorem claim8_result_code_104_immediate (script : ℕ → ApiResponse)
    (k : ℕ) (hk : k < 3)
    (hfail : ∀ j, j < k → ∃ w, clusterAttemptStep j (script j) = .failure w)
    (route : KakaoRoute) (rest : List KakaoRoute)
    (hs : script k = .http 200 (route :: rest))
    (hrc : route.resultCode = 104) :
    (runClusterRetry script).result = some (30 / 60, 10 / 1000) ∧
      (runClusterRetry script).attempts = k + 1 := by
  have hstep : clusterAttemptStep k (script k) = .success (30 / 60) (10 / 1000) := by
    rw [hs]
    exact clusterStep_resultCode104 k route rest hrc
  interval_cases k
  · constructor <;> simp [runClusterRetry, runClusterRetryAux, hstep]
  · obtain ⟨w0, h0⟩ := hfail 0 (by omega)
    constructor <;> simp [runClusterRetry, runClusterRetryAux, h0, hstep]
  · obtain ⟨w0, h0⟩ := hfail 0 (by omega)
    obtain ⟨w1, h1⟩ := hfail 1 (by omega)
    constructor <;> simp [runClusterRetry, runClusterRetryAux, h0, h1, hstep]

/-- Witness for `claim8_result_code_104_immediate`: a script answering
result_code 104 on the first attempt. -/
theorem claim8_witness :
    route104.resultCode = 104 ∧
      (runClusterRetry fun _ => resp104).result = some (30 / 60, 10 / 1000) ∧
      (runClusterRetry fun _ => resp104).attempts = 0 + 1 := by
  have h := claim8_result_code_104_immediate (fun _ => resp104) 0
    (by omega) (fun j hj => absurd hj (by omega)) route104 [] rfl rfl
  exact ⟨rfl, h.1, h.2⟩

/-- The per-cluster retry loop never exceeds its remaining-attempt
budget. -/
theorem runClusterRetryAux_attempts_le (script : ℕ → ApiResponse) :
    ∀ r a, (runClusterRetryAux script a r).attempts ≤ r := by
  intro r
  induction r with
  | zero => intro a; simp [runClusterRetryAux]
  | succ n ih =>
    intro a
    unfold runClusterRetryAux
    cases h : clusterAttemptStep a (script a) with
    | success t dist => simp
    | failure w => simpa using ih (a + 1)

/-- The hop retry loop never exceeds its remaining-attempt budget. -/
theorem runHopRetryAux_attempts_le (d : DistanceFn) (p q : ℚ × ℚ)
    (script : ℕ → ApiResponse) :
    ∀ r a, (runHopRetryAux d p q script a r).attempts ≤ r := by
  intro r
  induction r with
  | zero => intro a; simp [runHopRetryAux]
  | succ n ih =>
    intro a
    unfold runHopRetryAux
    cases h : hopAttemptStep a (script a) with
    | success t dist => simp
    | failure w => simpa using ih (a + 1)
    | crash => simp

/-- Claim C9 counterexample.  An inter-cluster hop call whose first
attempt receives HTTP 429 sleeps 2 to the 0, i.e. 1 second, before
retrying - not the fixed 5 seconds the claim states for every
directions call. -/
theorem claim9_hop_backoff_counterexample :
    hopAttemptStep 0 (.http 429 []) = .failure 1 ∧ (1 : ℚ) ≠ 5 := by
  constructor
  · norm_num [hopAttemptStep]
  · norm_num

/-- Claim C9 amended: every directions call makes at most 3 attempts.
For per-cluster calls, HTTP 429 is followed by a fixed 5 s sleep; a
non-429 HTTP failure, an empty routes array, a timeout or a network
error by the exponential backoff (2 to the attempt: 1 s then 2 s, none
after the final attempt); a non-zero provider result_code other than
104 and a malformed route retry immediately with no sleep; and a 200
response whose summary reports a non-positive duration retries after
2 s on the first attempt.  For inter-cluster hop calls, HTTP 429 is
followed by a 2-to-the-attempt-second sleep (1 s, 2 s, 4 s), a network
failure by 1 s except after the final attempt, and any other HTTP
failure or provider error by no sleep at all. -/
theorem claim9_amended :
    (∀ script, (runClusterRetry script).attempts ≤ 3) ∧
      (∀ d p q script, (runHopRetry d p q script).attempts ≤ 3) ∧
      (∀ a routes, clusterAttemptStep a (.http 429 routes) = .failure 5) ∧
      (∀ a, clusterAttemptStep a .timeout = .failure (backoffWaitSeconds a)) ∧
      (∀ a, clusterAttemptStep a .netError = .failure (backoffWaitSeconds a)) ∧
      (∀ a s routes, s ≠ 200 → s ≠ 429 →
        clusterAttemptStep a (.http s routes) = .failure (backoffWaitSeconds a)) ∧
      (∀ a routes, routes = [] →
        clusterAttemptStep a (.http 200 routes) = .failure (backoffWaitSeconds a)) ∧
      (∀ a route rest, route.resultCode ≠ 0 → route.resultCode ≠ 104 →
        clusterAttemptStep a (.http 200 (route :: rest)) = .failure 0) ∧
      (∀ route rest s0, route.resultCode = 0 → route.summary = some s0 →
        s0.duration ≤ 0 →
        clusterAttemptStep 0 (.http 200 (route :: rest)) = .failure 2) ∧
      (∀ a routes, hopAttemptStep a (.http 429 routes) = .failure ((2 : ℚ) ^ a)) ∧
      (∀ a, hopAttemptStep a .timeout = .failure (if a < 2 then 1 else 0)) ∧
      (∀ a, hopAttemptStep a .netError = .failure (if a < 2 then 1 else 0)) ∧
      (∀ a s routes, s ≠ 200 → s ≠ 429 →
        hopAttemptStep a (.http s routes) = .failure 0) ∧
      backoffWaitSeconds 0 = 1 ∧ backoffWaitSeconds 1 = 2 := by
  refine ⟨fun script => runClusterRetryAux_attempts_le script 3 0,
    fun d p q script => runHopRetryAux_attempts_le d p q script 3 0,
    ?_, ?_, ?_, ?_, ?_, ?_, ?_, ?_, ?_, ?_, ?_, ?_, ?_⟩
  · intro a routes; simp [clusterAttemptStep]
  · intro a; rfl
  · intro a; rfl
  · intro a s routes h1 h2; simp [clusterAttemptStep, h1, h2]
  · intro a routes h; subst h; simp [clusterAttemptStep]
  · intro a route rest h1 h2; simp [clusterAttemptStep, h1, h2]
  · intro route rest s0 h1 h2 h3
    simp [clusterAttemptStep, h1, h2, extractRouteMeasurement, h3]
  · intro a routes; simp [hopAttemptStep]
  · intro a; rfl
  · intro a; rfl
  · intro a s routes h1 h2; simp [hopAttemptStep, h1, h2]
  · rfl
  · rfl

/-- Witness for `claim9_amended` at concrete scripts, statuses and
routes. -/
theorem claim9_amended_witness :
    (runClusterRetry fun _ => .timeout).attempts ≤ 3 ∧
      (runHopRetry dConstZero (0, 0) (0, 0) fun _ => .netError).attempts ≤ 3 ∧
      clusterAttemptStep 0 (.http 429 []) = .failure 5 ∧
      clusterAttemptStep 1 (.http 500 []) = .failure (backoffWaitSeconds 1) ∧
      clusterAttemptStep 0 (.http 200 [⟨7, none, []⟩]) = .failure 0 ∧
      clusterAttemptStep 0 (.http 200 [⟨0, some ⟨0, 5⟩, []⟩]) = .failure 2 ∧
      hopAttemptStep 2 (.http 429 []) = .failure ((2 : ℚ) ^ 2) ∧
      hopAttemptStep 0 (.http 503 []) = .failure 0 := by
  have h := claim9_amended
  exact ⟨h.1 _, h.2.1 dConstZero (0, 0) (0, 0) _, h.2.2.1 0 [],
    h.2.2.2.2.2.1 1 500 [] (by omega) (by omega),
    h.2.2.2.2.2.2.2.1 0 ⟨7, none, []⟩ [] (by decide) (by decide),
    h.2.2.2.2.2.2.2.2.1 ⟨0, some ⟨0, 5⟩, []⟩ [] ⟨0, 5⟩ rfl rfl le_rfl,
    h.2.2.2.2.2.2.2.2.2.1 2 [],
    h.2.2.2.2.2.2.2.2.2.2.2.2.1 0 503 [] (by omega) (by omega)⟩

/-- Claim C10: a 200 response whose first route carries any non-zero
result_code makes the public client raise a classified error instead
of returning, and the batch routed through the client therefore fails
with no waypoint measurement - the public path never converts the
code into a degenerate pair. -/
theorem claim10_client_rejects_nonzero_result_code (route : KakaoRoute)
    (rest : List KakaoRoute) (hrc : route.resultCode ≠ 0) :
    (∃ e, getOptimizedRoute (.http 200 (route :: rest)) = .error e) ∧
      optimizeSingleBatchViaClient (.http 200 (route :: rest)) = none := by
  have hv : ∃ e, validateApiResponse (route :: rest) = some e := by
    simp only [validateApiResponse]
    split_ifs with h1 h2 h3
    · exact absurd h1 hrc
    · exact ⟨_, rfl⟩
    · exact ⟨_, rfl⟩
    · exact ⟨_, rfl⟩
  obtain ⟨e, he⟩ := hv
  refine ⟨⟨e, ?_⟩, ?_⟩ <;>
    simp [getOptimizedRoute, optimizeSingleBatchViaClient, he]

/-- Witness for `claim10_client_rejects_nonzero_result_code` at
result_code 104: the degenerate proximity code is rejected by the
public client path. -/
theorem claim10_witness :
    route104.resultCode ≠ 0 ∧
      (∃ e, getOptimizedRoute (.http 200 [route104]) = .error e) ∧
      optimizeSingleBatchViaClient (.http 200 [route104]) = none := by
  have h := claim10_client_rejects_nonzero_result_code route104 [] (by decide)
  exact ⟨by decide, h.1, h.2⟩

/-- Gluing two chains at a shared junction element. -/
theorem chain'_cons_append {α : Type} {R : α → α → Prop} :
    ∀ (l1 : List α) (x y : α) (l2 : List α), List.Chain' R (x :: l1) →
      l1.getLastD x = y → List.Chain' R (y :: l2) →
      List.Chain' R (x :: l1 ++ l2)
  | [], x, y, l2, _, hy, h2 => by
    simp at hy
    subst hy
    simpa using h2
  | a :: t, x, y, l2, h1, hy, h2 => by
    rw [List.chain'_cons] at h1
    rw [List.getLastD_cons] at hy
    have ih := chain'_cons_append t a y l2 h1.2 hy h2
    exact List.chain'_cons.2 ⟨h1.1, ih⟩

/-- The middle entries of a batch carry non-decreasing cumulative
pairs when every section value is non-negative. -/
theorem buildMiddleEntries_cum_chain (details : List (ℚ × ℚ))
    (hdet : ∀ p ∈ details, 0 ≤ p.1 ∧ 0 ≤ p.2) :
    ∀ (ws : List Point) (i : ℕ) (cd ct : ℚ),
      List.Chain' pairLe
        ((cd, ct) :: (buildMiddleEntries details i cd ct ws).map cumPair)
  | [], _, _, _ => by simp [buildMiddleEntries]
  | w :: ws, i, cd, ct => by
    have hsec : 0 ≤ (details.getD i (0, 0)).1 ∧ 0 ≤ (details.getD i (0, 0)).2 := by
      by_cases hi : i < details.length
      · rw [List.getD_eq_getElem details (0, 0) hi]
        exact hdet _ (List.getElem_mem hi)
      · rw [List.getD_eq_default _ _ (by omega)]
        exact ⟨le_refl 0, le_refl 0⟩
    simp only [buildMiddleEntries, List.map_cons]
    refine List.chain'_cons.2 ⟨?_, ?_⟩
    · exact ⟨le_add_of_nonneg_right hsec.1, le_add_of_nonneg_right hsec.2⟩
    · exact buildMiddleEntries_cum_chain details hdet ws (i + 1) _ _

/-- The leg values of an excel row are non-negative whenever the
connection pair and the entry's own leg values are. -/
theorem excelLegValues_nonneg (bn idx : ℕ) (cD cT : ℚ)
    (hc : 0 ≤ cD ∧ 0 ≤ cT) (e : SeqEntry)
    (he : 0 ≤ e.distanceFromPrev ∧ 0 ≤ e.durationFromPrev) :
    0 ≤ (excelLegValues bn idx cD cT e).1 ∧
      0 ≤ (excelLegValues bn idx cD cT e).2 := by
  unfold excelLegValues
  split_ifs
  · exact hc
  · exact ⟨le_refl 0, le_refl 0⟩
  · exact he

/-- The excel rows of one batch are chained to their incoming
accumulator pair, and the final accumulator equals the last row. -/
theorem excelRowsQ_chain (bn : ℕ) (cD cT : ℚ) (hc : 0 ≤ cD ∧ 0 ≤ cT) :
    ∀ (es : List SeqEntry),
      (∀ e ∈ es, 0 ≤ e.distanceFromPrev ∧ 0 ≤ e.durationFromPrev) →
      ∀ (idx : ℕ) (cd ct : ℚ),
        List.Chain' pairLe ((cd, ct) :: (excelRowsQ bn cD cT idx cd ct es).1) ∧
          (excelRowsQ bn cD cT idx cd ct es).1.getLastD (cd, ct) =
            ((excelRowsQ bn cD cT idx cd ct es).2.1,
              (excelRowsQ bn cD cT idx cd ct es).2.2)
  | [], _, idx, cd, ct => by simp [excelRowsQ]
  | e :: es, hes, idx, cd, ct => by
    have hd := excelLegValues_nonneg bn idx cD cT hc e (hes e (by simp))
    have hes' : ∀ x ∈ es, 0 ≤ x.distanceFromPrev ∧ 0 ≤ x.durationFromPrev :=
      fun x hx => hes x (by simp [hx])
    have ih := excelRowsQ_chain bn cD cT hc es hes' (idx + 1)
    simp only [excelRowsQ]
    constructor
    · refine List.chain'_cons.2 ⟨?_, (ih _ _).1⟩
      constructor
      · dsimp only
        split_ifs
        · exact le_add_of_nonneg_right hd.1
        · exact le_refl cd
      · dsimp only
        split_ifs
        · exact le_add_of_nonneg_right hd.2
        · exact le_refl ct
    · rw [List.getLastD_cons]
      exact (ih _ _).2

/-- The per-batch optimized waypoint sequence has non-decreasing
cumulative pairs when every section value is non-negative. -/
theorem buildSeq_cum_chain (o dst : Point) (mids : List Point)
    (details : List (ℚ × ℚ)) (hdet : ∀ p ∈ details, 0 ≤ p.1 ∧ 0 ≤ p.2) :
    List.Chain' pairLe
      ((buildOptimizedWaypointSequence o dst mids details).map cumPair) := by
  have hfin : 0 ≤ (details.getLastD (0, 0)).1 ∧ 0 ≤ (details.getLastD (0, 0)).2 := by
    cases details with
    | nil => exact ⟨le_refl 0, le_refl 0⟩
    | cons a t =>
      rw [List.getLastD_cons]
      exact hdet _ (List.getLastD_mem_cons t a)
  have hchain := buildMiddleEntries_cum_chain details hdet mids 0 0 0
  have hsingle : List.Chain' pairLe
      [((List.map cumPair (buildMiddleEntries details 0 0 0 mids)).getLastD (0, 0)),
        (((List.map cumPair (buildMiddleEntries details 0 0 0 mids)).getLastD (0, 0)).1 +
            (details.getLastD (0, 0)).1,
          ((List.map cumPair (buildMiddleEntries details 0 0 0 mids)).getLastD (0, 0)).2 +
            (details.getLastD (0, 0)).2)] :=
    List.chain'_cons.2
      ⟨⟨le_add_of_nonneg_right hfin.1, le_add_of_nonneg_right hfin.2⟩,
        List.chain'_singleton _⟩
  have happ := chain'_cons_append
    (List.map cumPair (buildMiddleEntries details 0 0 0 mids)) (0, 0)
    ((List.map cumPair (buildMiddleEntries details 0 0 0 mids)).getLastD (0, 0))
    _ hchain rfl hsingle
  simp only [buildOptimizedWaypointSequence, List.map_append, List.map_cons,
    List.map_nil]
  simpa [cumPair] using happ

/-- The whole sheet's rows are chained to the initial zero
accumulator: the global cumulative columns never decrease and are
never reset across batches. -/
theorem saveRowsAux_chain :
    ∀ (batches : List ExcelBatch) (bn : ℕ) (cd ct : ℚ),
      (∀ b ∈ batches, batchNonneg b) →
      List.Chain' pairLe ((cd, ct) :: saveRowsAux bn cd ct batches)
  | [], _, _, _, _ => by simp [saveRowsAux]
  | b :: bs, bn, cd, ct, hb => by
    have hbn := hb b (by simp)
    have h1 := excelRowsQ_chain bn b.connDist b.connDur ⟨hbn.1, hbn.2.1⟩
      b.entries hbn.2.2 0 cd ct
    have ih := saveRowsAux_chain bs (bn + 1)
      (excelRowsQ bn b.connDist b.connDur 0 cd ct b.entries).2.1
      (excelRowsQ bn b.connDist b.connDur 0 cd ct b.entries).2.2
      (fun x hx => hb x (by simp [hx]))
    simp only [saveRowsAux]
    exact chain'_cons_append _ _ _ _ h1.1 h1.2 ih

/-- Claim C4 amended: inside each batch the cumulative fields written
by `_build_optimized_waypoint_sequence` are non-decreasing (given
non-negative section values), but every batch restarts from cumulative
zero at its origin entry, so the concatenated per-waypoint fields are
reset at each cluster boundary; the cumulative that is carried across
cluster boundaries without ever being reset is the one the Excel
writer recomputes in `save_optimization_results`, whose global
cumulative columns are non-decreasing along the whole output whenever
the per-leg values and the inter-batch connection values are
non-negative. -/
theorem claim4_amended (batches : List ExcelBatch)
    (hb : ∀ b ∈ batches, batchNonneg b) (o dst : Point) (mids : List Point)
    (details : List (ℚ × ℚ)) (hdet : ∀ p ∈ details, 0 ≤ p.1 ∧ 0 ≤ p.2) :
    ((buildOptimizedWaypointSequence o dst mids details).head?.map cumPair) =
        some (0, 0) ∧
      List.Chain' pairLe
        ((buildOptimizedWaypointSequence o dst mids details).map cumPair) ∧
      List.Chain' pairLe (saveOptimizationRowsQ batches) ∧
      List.Chain' (fun a b : ℤ × ℤ => a.1 ≤ b.1 ∧ a.2 ≤ b.2)
        (saveOptimizationRows batches) := by
  have hq : List.Chain' pairLe (saveOptimizationRowsQ batches) :=
    (saveRowsAux_chain batches 1 0 0 hb).tail
  refine ⟨?_, buildSeq_cum_chain o dst mids details hdet, hq, ?_⟩
  · simp [buildOptimizedWaypointSequence, cumPair]
  · refine List.chain'_map_of_chain' _ ?_ hq
    intro a b hab
    exact ⟨Int.floor_le_floor hab.1, Int.floor_le_floor hab.2⟩

/-- Witness for `claim4_amended` on the two concrete batches of the
counterexample, fed through the Excel writer with a 40 m connection
leg on the second batch. -/
theorem claim4_amended_witness :
    (∀ b ∈ [excelBatchA, excelBatchB], batchNonneg b) ∧
      ((buildOptimizedWaypointSequence ⟨0, 0, 0⟩ ⟨1, 1, 0⟩ [] [(100, 200)]).head?.map
          cumPair) = some (0, 0) ∧
      List.Chain' pairLe
        ((buildOptimizedWaypointSequence ⟨0, 0, 0⟩ ⟨1, 1, 0⟩ [] [(100, 200)]).map
          cumPair) ∧
      List.Chain' pairLe (saveOptimizationRowsQ [excelBatchA, excelBatchB]) ∧
      List.Chain' (fun a b : ℤ × ℤ => a.1 ≤ b.1 ∧ a.2 ≤ b.2)
        (saveOptimizationRows [excelBatchA, excelBatchB]) := by
  have hb : ∀ b ∈ [excelBatchA, excelBatchB], batchNonneg b := by
    intro b hbmem
    rcases List.mem_cons.1 hbmem with h | h
    · subst h
      refine ⟨le_refl 0, le_refl 0, ?_⟩
      intro e he
      simp [excelBatchA, buildOptimizedWaypointSequence, buildMiddleEntries] at he
      rcases he with h | h <;> subst h <;> norm_num
    · rw [List.mem_singleton] at h
      subst h
      refine ⟨by norm_num [excelBatchB], le_refl 0, ?_⟩
      intro e he
      simp [excelBatchB, buildOptimizedWaypointSequence, buildMiddleEntries] at he
      rcases he with h | h <;> subst h <;> norm_num
  have hdet : ∀ p ∈ [((100 : ℚ), (200 : ℚ))], 0 ≤ p.1 ∧ 0 ≤ p.2 := by
    intro p hp
    rw [List.mem_singleton] at hp
    subst hp
    norm_num
  have h := claim4_amended [excelBatchA, excelBatchB] hb ⟨0, 0, 0⟩ ⟨1, 1, 0⟩ []
    [(100, 200)] hdet
  exact ⟨hb, h.1, h.2.1, h.2.2.1, h.2.2.2⟩

/-! ## Conservation of points through the clustering pipeline -/

/-- Summing an indicator over an index range. -/
theorem sum_map_range_ite (c j : ℕ) :
    ∀ n, (((List.range n).map fun i => if j = i then c else 0)).sum =
      if j < n then c else 0
  | 0 => by simp
  | n + 1 => by
    rw [List.range_succ, List.map_append, List.sum_append,
      sum_map_range_ite c j n]
    by_cases h1 : j < n
    · have h2 : j ≠ n := Nat.ne_of_lt h1
      have h3 : j < n + 1 := Nat.lt_succ_of_lt h1
      simp [h1, h2, h3]
    · by_cases h2 : j = n
      · subst h2
        simp [h1, Nat.lt_succ_self]
      · have h3 : ¬j < n + 1 := by omega
        simp [h1, h2, h3]

/-- Counting inside one fiber of an index-valued function. -/
theorem count_filter_fiber {α : Type} [DecidableEq α] (f : α → ℕ)
    (l : List α) (i : ℕ) (a : α) :
    (l.filter fun x => f x == i).count a =
      if f a = i then l.count a else 0 := by
  by_cases h : f a = i
  · rw [if_pos h]
    exact List.count_filter (by simpa using h)
  · rw [if_neg h, List.count_eq_zero]
    intro hmem
    exact h (by simpa using (List.mem_filter.1 hmem).2)

/-- Fibering a list by an index-valued function bounded by the range
partitions it: the concatenation of the fibers is a permutation of the
list. -/
theorem fiber_flatten_perm {α : Type} [DecidableEq α] (f : α → ℕ)
    (l : List α) (n : ℕ) (h : ∀ a ∈ l, f a < n) :
    (((List.range n).map fun i => l.filter fun x => f x == i).flatten).Perm l := by
  rw [List.perm_iff_count]
  intro a
  rw [List.count_flatten, List.map_map]
  have hmap : ((List.range n).map (List.count a ∘ fun i => l.filter fun x => f x == i)) =
      (List.range n).map fun i => if f a = i then l.count a else 0 := by
    refine List.map_congr_left fun i _ => ?_
    exact count_filter_fiber f l i a
  rw [hmap, sum_map_range_ite]
  by_cases ha : a ∈ l
  · rw [if_pos (h a ha)]
  · rw [List.count_eq_zero.2 ha]
    simp

/-- Dropping empty lists does not change a concatenation. -/
theorem flatten_filter_not_isEmpty {α : Type} :
    ∀ L : List (List α), ((L.filter fun l => !l.isEmpty).flatten) = L.flatten
  | [] => rfl
  | l :: L => by
    cases l with
    | nil => simpa using flatten_filter_not_isEmpty L
    | cons x xs => simpa using flatten_filter_not_isEmpty L

/-- Flattening singletons recovers the list. -/
theorem flatten_map_singleton {α : Type} :
    ∀ l : List α, ((l.map fun r => [r]).flatten) = l
  | [] => rfl
  | x :: xs => by simpa using flatten_map_singleton xs

/-- The first-minimum selector stays inside its candidate pool. -/
theorem argminD_mem {α : Type} (f : α → ℚ) :
    ∀ (t : List α) (h : α), argminD f h t ∈ h :: t
  | [], h => by simp [argminD]
  | a :: t, h => by
    have ih := argminD_mem f t (if f a < f h then a else h)
    simp only [argminD, List.foldl_cons] at ih ⊢
    rcases List.mem_cons.1 ih with h1 | h1
    · rw [h1]
      by_cases hc : f a < f h
      · simp [hc]
      · simp [hc]
    · exact List.mem_cons_of_mem _ (List.mem_cons_of_mem _ h1)

/-- The first-minimum selector with infinity-valued keys stays inside
its candidate pool. -/
theorem argminInfD_mem {α : Type} (f : α → Option ℚ) :
    ∀ (t : List α) (h : α), argminInfD f h t ∈ h :: t
  | [], h => by simp [argminInfD]
  | a :: t, h => by
    have ih := argminInfD_mem f t (if infLt (f a) (f h) then a else h)
    simp only [argminInfD, List.foldl_cons] at ih ⊢
    rcases List.mem_cons.1 ih with h1 | h1
    · rw [h1]
      by_cases hc : infLt (f a) (f h)
      · simp [hc]
      · simp [hc]
    · exact List.mem_cons_of_mem _ (List.mem_cons_of_mem _ h1)

/-- The nearest-neighbour loop visits exactly the pool: its output is
a permutation of the remaining points. -/
theorem nnRouteAux_perm (d : DistanceFn) :
    ∀ (fuel : ℕ) (cur : Point) (rem : List Point), rem.length ≤ fuel →
      (nnRouteAux d fuel cur rem).Perm rem
  | 0, _, rem, hlen => by
    have : rem = [] := List.length_eq_zero.1 (by omega)
    subst this
    simp [nnRouteAux]
  | fuel + 1, cur, [], _ => by simp [nnRouteAux]
  | fuel + 1, cur, h :: t, hlen => by
    have hmem : argminD (fun wp => d (pointCoord cur) (pointCoord wp)) h t ∈ h :: t :=
      argminD_mem _ t h
    have hlen2 : ((h :: t).erase
        (argminD (fun wp => d (pointCoord cur) (pointCoord wp)) h t)).length ≤ fuel := by
      rw [List.length_erase_of_mem hmem]
      simp at hlen ⊢
      omega
    have ih := nnRouteAux_perm d fuel
      (argminD (fun wp => d (pointCoord cur) (pointCoord wp)) h t)
      ((h :: t).erase (argminD (fun wp => d (pointCoord cur) (pointCoord wp)) h t))
      hlen2
    rw [nnRouteAux]
    exact ((ih.cons _).trans (List.perm_cons_erase hmem).symm)

/-- The nearest-neighbour output over a pool of points is a
permutation of the pool. -/
theorem nnRoute_perm (d : DistanceFn) (cur : Point) (rem : List Point) :
    (nnRoute d cur rem).Perm rem :=
  nnRouteAux_perm d rem.length cur rem le_rfl

/-- The index-level nearest-neighbour loop is a permutation of its
pool. -/
theorem nnIdxRouteAux_perm (lookup : ℕ → ℕ → Option ℚ) :
    ∀ (fuel cur : ℕ) (rem : List ℕ), rem.length ≤ fuel →
      (nnIdxRouteAux lookup fuel cur rem).Perm rem
  | 0, _, rem, hlen => by
    have : rem = [] := List.length_eq_zero.1 (by omega)
    subst this
    simp [nnIdxRouteAux]
  | fuel + 1, cur, [], _ => by simp [nnIdxRouteAux]
  | fuel + 1, cur, h :: t, hlen => by
    have hmem : argminInfD (fun j => lookup cur j) h t ∈ h :: t :=
      argminInfD_mem _ t h
    have hlen2 : ((h :: t).erase (argminInfD (fun j => lookup cur j) h t)).length ≤ fuel := by
      rw [List.length_erase_of_mem hmem]
      simp at hlen ⊢
      omega
    have ih := nnIdxRouteAux_perm lookup fuel
      (argminInfD (fun j => lookup cur j) h t)
      ((h :: t).erase (argminInfD (fun j => lookup cur j) h t)) hlen2
    rw [nnIdxRouteAux]
    exact ((ih.cons _).trans (List.perm_cons_erase hmem).symm)

/-- The tour of `_traveling_salesman_approximation` is a permutation
of its input. -/
theorem tspApproximation_perm (d : DistanceFn) (waypoints : List Point)
    (startIdx : ℕ) : (tspApproximation d waypoints startIdx).Perm waypoints := by
  unfold tspApproximation
  by_cases hlen : waypoints.length ≤ 2
  · simp [hlen]
  · rw [if_neg hlen]
    dsimp only
    have hs : (if startIdx < waypoints.length then startIdx else 0) <
        waypoints.length := by
      split_ifs with h
      · exact h
      · omega
    set s := if startIdx < waypoints.length then startIdx else 0 with hsdef
    have hget : waypoints[s]? = some waypoints[s] := List.getElem?_eq_getElem hs
    rw [hget]
    have hperm1 : (nnRoute d waypoints[s] (waypoints.eraseIdx s)).Perm
        (waypoints.eraseIdx s) := nnRoute_perm d _ _
    have hsplit : waypoints = waypoints.take s ++ waypoints[s] :: waypoints.drop (s + 1) := by
      rw [List.getElem_cons_drop waypoints s hs, List.take_append_drop]
    have hperm2 : waypoints.Perm (waypoints[s] :: waypoints.eraseIdx s) := by
      rw [List.eraseIdx_eq_take_drop_succ]
      conv_lhs => rw [hsplit]
      exact List.perm_middle
    exact ((hperm1.cons _).trans hperm2.symm)

/-- The tour has the same length as its input. -/
theorem tspApproximation_length (d : DistanceFn) (waypoints : List Point)
    (startIdx : ℕ) :
    (tspApproximation d waypoints startIdx).length = waypoints.length :=
  (tspApproximation_perm d waypoints startIdx).length_eq

/-- Flattening the uniform slices of a list gives its prefix. -/
theorem flatten_map_take_drop {α : Type} (l : List α) (w : ℕ) :
    ∀ m, (((List.range m).map fun i => (l.drop (i * w)).take w).flatten) =
      l.take (m * w)
  | 0 => by simp
  | m + 1 => by
    rw [List.range_succ, List.map_append, List.flatten_append,
      flatten_map_take_drop l w m]
    simp [Nat.succ_mul, List.take_add]

/-- Flattening the chunks cut by `_split_large_cluster` recovers the
ordered tour. -/
theorem sliceChunks_flatten (ordered : List Point) (numSub wpc : ℕ)
    (h : 1 ≤ numSub) :
    (sliceChunks ordered numSub wpc).flatten = ordered := by
  obtain ⟨m, rfl⟩ : ∃ m, numSub = m + 1 := ⟨numSub - 1, by omega⟩
  unfold sliceChunks
  rw [List.range_succ, List.map_append]
  have hcong : ((List.range m).map fun i =>
      if i = m + 1 - 1 then ordered.drop (i * wpc)
      else (ordered.drop (i * wpc)).take wpc) =
      (List.range m).map fun i => (ordered.drop (i * wpc)).take wpc := by
    refine List.map_congr_left fun i hi => ?_
    rw [List.mem_range] at hi
    rw [if_neg (by omega)]
  rw [hcong, List.flatten_append, flatten_map_take_drop]
  simp

/-- Mapping membership over the chunk clusters built by
`_split_large_cluster`: the flattened member lists of the produced
clusters are exactly the flattened non-empty chunks, i.e. the whole
chunk list. -/
theorem flatten_filterMap_chunkClusters (baseId : ℤ) :
    ∀ (n : ℕ) (chunks : List (List Point)),
      (((chunks.enumFrom n).filterMap fun p =>
          match p.2 with
          | [] => none
          | w :: ws =>
            some (⟨baseId * 100 + (p.1 : ℤ), w :: ws, w,
              (w :: ws).getLast (by simp), 0⟩ : GlobalRouteCluster)).map
        GlobalRouteCluster.waypoints).flatten = chunks.flatten
  | _, [] => by simp
  | n, chunk :: chunks => by
    cases chunk with
    | nil => simpa using flatten_filterMap_chunkClusters baseId (n + 1) chunks
    | cons w ws =>
      simpa using flatten_filterMap_chunkClusters baseId (n + 1) chunks

/-- The members of the clusters produced by `_split_large_cluster` are
a permutation of the input cluster's members. -/
theorem splitLargeCluster_points (d : DistanceFn) (c : GlobalRouteCluster)
    (h : 1 ≤ c.waypoints.length) :
    (((splitLargeCluster d c).map GlobalRouteCluster.waypoints).flatten).Perm
      c.waypoints := by
  unfold splitLargeCluster
  have hnum : 1 ≤ (c.waypoints.length + 30 - 1) / 30 := by omega
  rw [List.enum]
  rw [flatten_filterMap_chunkClusters c.cid 0]
  rw [sliceChunks_flatten _ _ _ hnum]
  exact tspApproximation_perm d c.waypoints 0

/-- Size balancing conserves the multiset of members. -/
theorem balanceClusterSizes_points (d : DistanceFn) :
    ∀ cs : List GlobalRouteCluster,
      (((balanceClusterSizes d cs).map GlobalRouteCluster.waypoints).flatten).Perm
        ((cs.map GlobalRouteCluster.waypoints).flatten)
  | [] => by simp [balanceClusterSizes]
  | c :: cs => by
    have ih := balanceClusterSizes_points d cs
    simp only [balanceClusterSizes, List.map_cons, List.flatten_cons] at ih ⊢
    rw [List.map_append, List.flatten_append]
    refine List.Perm.append ?_ ih
    by_cases hc : c.waypoints.length > 30
    · rw [if_pos hc]
      exact splitLargeCluster_points d c (by omega)
    · rw [if_neg hc]
      simp

/-- The first-strict-minimum index fold keeps its first component
inside the bound satisfied by the initial value and every candidate. -/
theorem foldl_sel_fst_lt {γ : Type} (n : ℕ) (key : ℕ × γ → Option ℚ) :
    ∀ (l : List (ℕ × γ)) (init : ℕ × Option ℚ), init.1 < n →
      (∀ p ∈ l, p.1 < n) →
      (l.foldl (fun st p =>
        if infLt (key p) st.2 then (p.1, key p) else st) init).1 < n
  | [], init, hinit, _ => hinit
  | p :: l, init, hinit, hl => by
    rw [List.foldl_cons]
    refine foldl_sel_fst_lt n key l _ ?_ fun q hq => hl q (by simp [hq])
    by_cases hc : infLt (key p) init.2
    · simpa [hc] using hl p (by simp)
    · simpa [hc] using hinit

/-- The closest representative cluster index is a valid index. -/
theorem closestRepCluster_lt (d : DistanceFn)
    (repClusters : List (List Point)) (wp : Point)
    (h : repClusters ≠ []) :
    closestRepCluster d repClusters wp < repClusters.length := by
  unfold closestRepCluster
  refine foldl_sel_fst_lt repClusters.length
    (fun p => minDistToReps d wp p.2) repClusters.enum (0, none) ?_ ?_
  · exact List.length_pos.2 h
  · intro p hp
    exact List.fst_lt_of_mem_enum hp

/-- The closest centroid position is below any bound on the centroid
count. -/
theorem closestCentroidPos_lt (lookup : ℕ → ℕ → Option ℚ)
    (centroids : List ℕ) (repIdx k : ℕ) (hk : 0 < k)
    (hlen : centroids.length ≤ k) :
    closestCentroidPos lookup centroids repIdx < k := by
  unfold closestCentroidPos
  refine foldl_sel_fst_lt k (fun p => lookup repIdx p.2) centroids.enum
    (0, none) hk ?_
  intro p hp
  exact lt_of_lt_of_le (List.fst_lt_of_mem_enum hp) hlen

/-- Each farthest-first round appends at most one centroid. -/
theorem selectCentroidsGo_length (lookup : ℕ → ℕ → Option ℚ) :
    ∀ (n : ℕ) (cs rem : List ℕ),
      (selectCentroidsGo lookup n cs rem).length ≤ cs.length + n
  | 0, cs, _ => by simp [selectCentroidsGo]
  | n + 1, cs, [] => by simp [selectCentroidsGo]
  | n + 1, cs, h :: t => by
    rw [selectCentroidsGo]
    have ih := selectCentroidsGo_length lookup n (cs ++ [farthestCandidate lookup cs (h :: t)])
      ((h :: t).erase (farthestCandidate lookup cs (h :: t)))
    simp at ih ⊢
    omega

/-- The representative clusters partition the representatives. -/
theorem clusterRepresentatives_flatten_perm (d : DistanceFn)
    (reps : List Point) (k : ℕ) (hk : 1 ≤ k) :
    ((clusterRepresentatives d reps k).flatten).Perm reps := by
  unfold clusterRepresentatives
  by_cases hkl : k ≥ reps.length
  · rw [if_pos hkl, flatten_map_singleton]
  · rw [if_neg hkl]
    dsimp only
    rw [flatten_filter_not_isEmpty]
    have hclen : (selectCentroidIdxs (roadMatrixLookup d reps) reps.length k).length ≤ k := by
      unfold selectCentroidIdxs
      have := selectCentroidsGo_length (roadMatrixLookup d reps) (k - 1) [0]
        ((List.range reps.length).erase 0)
      simp at this
      omega
    have hbound : ∀ p ∈ reps.enum,
        closestCentroidPos (roadMatrixLookup d reps)
          (selectCentroidIdxs (roadMatrixLookup d reps) reps.length k) p.1 < k :=
      fun p _ => closestCentroidPos_lt _ _ _ k (by omega) hclen
    have hperm := fiber_flatten_perm
      (fun p : ℕ × Point => closestCentroidPos (roadMatrixLookup d reps)
        (selectCentroidIdxs (roadMatrixLookup d reps) reps.length k) p.1)
      reps.enum k hbound
    have hmapmap : ((List.range k).map fun cpos =>
        ((reps.enum.filter fun p =>
          closestCentroidPos (roadMatrixLookup d reps)
            (selectCentroidIdxs (roadMatrixLookup d reps) reps.length k) p.1 == cpos).map
          Prod.snd)) =
        ((List.range k).map fun cpos =>
          (reps.enum.filter fun p =>
            closestCentroidPos (roadMatrixLookup d reps)
              (selectCentroidIdxs (roadMatrixLookup d reps) reps.length k) p.1 == cpos)).map
          (List.map Prod.snd) := (List.map_map _ _ _).symm
    rw [hmapmap, ← List.map_flatten]
    have h2 := hperm.map Prod.snd
    rw [List.enum_map_snd] at h2
    exact h2

/-- The clusters built from the waypoint fibers carry exactly the
fibers as member lists. -/
theorem flatten_raw_fiber (d : DistanceFn) (g : ℕ → List Point) :
    ∀ I : List ℕ,
      ((I.filterMap fun cid =>
          match g cid with
          | [] => none
          | w :: ws =>
            some (⟨(cid : ℤ), checkNearbyWaypoints d 10 (w :: ws),
              (checkNearbyWaypoints d 10 (w :: ws)).headD defaultPoint,
              (checkNearbyWaypoints d 10 (w :: ws)).getLastD defaultPoint, 0⟩ :
                GlobalRouteCluster)).map GlobalRouteCluster.waypoints).flatten =
        (I.map g).flatten
  | [] => by simp
  | cid :: I => by
    cases hg : g cid with
    | nil => simpa [hg] using flatten_raw_fiber d g I
    | cons w ws => simpa [hg, checkNearbyWaypoints] using flatten_raw_fiber d g I

/-- Dropping clusters with no members does not change the flattened
member list. -/
theorem flatten_map_filter_nonempty_clusters :
    ∀ cs : List GlobalRouteCluster,
      (((cs.filter fun c => !c.waypoints.isEmpty).map
          GlobalRouteCluster.waypoints).flatten) =
        ((cs.map GlobalRouteCluster.waypoints).flatten)
  | [] => rfl
  | c :: cs => by
    by_cases hc : c.waypoints.isEmpty
    · have hnil : c.waypoints = [] := by simpa using hc
      simp [hc, hnil, flatten_map_filter_nonempty_clusters cs]
    · simp [hc, flatten_map_filter_nonempty_clusters cs]

/-- Conservation through `_road_aware_clustering`: the flattened
member lists of the produced clusters are a permutation of the input
waypoints. -/
theorem roadAwareClustering_points (d : DistanceFn) (wps : List Point)
    (K : ℕ) (hK : 1 ≤ K) :
    (((roadAwareClustering d wps K).map GlobalRouteCluster.waypoints).flatten).Perm
      wps := by
  unfold roadAwareClustering
  dsimp only
  refine (balanceClusterSizes_points d _).trans ?_
  rw [flatten_map_filter_nonempty_clusters]
  rw [flatten_raw_fiber d
    (fun cid => wps.filter fun wp =>
      closestRepCluster d (clusterRepresentatives d wps K) wp == cid)
    (List.range (clusterRepresentatives d wps K).length)]
  refine fiber_flatten_perm _ wps (clusterRepresentatives d wps K).length ?_
  intro a ha
  have hne : clusterRepresentatives d wps K ≠ [] := by
    intro hnil
    have hperm := clusterRepresentatives_flatten_perm d wps K hK
    rw [hnil] at hperm
    have : wps = [] := hperm.symm.eq_nil
    subst this
    exact (List.not_mem_nil a) ha
  exact closestRepCluster_lt d _ a hne

/-- A cluster-index tour from a valid start is a permutation of all
indices. -/
theorem clusterTspApproximation_perm (lookup : ℕ → ℕ → Option ℚ)
    (n s : ℕ) (hs : s < n) :
    (clusterTspApproximation lookup n s).Perm (List.range n) := by
  unfold clusterTspApproximation
  have hperm := nnIdxRouteAux_perm lookup ((List.range n).erase s).length s
    ((List.range n).erase s) le_rfl
  exact ((hperm.cons s).trans
    (List.perm_cons_erase (List.mem_range.2 hs)).symm)

/-- The best-order fold of `_optimize_cluster_sequence` always holds a
permutation of all cluster indices. -/
theorem foldl_bestSeq_perm (lookup : ℕ → ℕ → Option ℚ) (n : ℕ) :
    ∀ (l : List ℕ) (init : List ℕ), (∀ s ∈ l, s < n) →
      init.Perm (List.range n) →
      (l.foldl (fun best s =>
        if clusterSeqDistance lookup (clusterTspApproximation lookup n s) <
            clusterSeqDistance lookup best then
          clusterTspApproximation lookup n s
        else best) init).Perm (List.range n)
  | [], _, _, hinit => hinit
  | s :: l, init, hl, hinit => by
    rw [List.foldl_cons]
    refine foldl_bestSeq_perm lookup n l _ (fun q hq => hl q (by simp [hq])) ?_
    by_cases hc : clusterSeqDistance lookup (clusterTspApproximation lookup n s) <
        clusterSeqDistance lookup init
    · rw [if_pos hc]
      exact clusterTspApproximation_perm lookup n s (hl s (by simp))
    · rw [if_neg hc]
      exact hinit

/-- Reading a list back through all its valid indices. -/
theorem filterMap_getElem_range {α : Type} :
    ∀ l : List α, ((List.range l.length).filterMap fun i => l[i]?) = l
  | [] => by simp
  | a :: t => by
    rw [List.length_cons, List.range_succ_eq_map, List.filterMap_cons]
    simp only [List.getElem?_cons_zero, List.filterMap_map]
    have : ((List.range t.length).filterMap fun i => (a :: t)[i + 1]?) =
        (List.range t.length).filterMap fun i => t[i]? := by
      refine List.filterMap_congr fun i _ => ?_
      simp
    rw [Function.comp_def, this, filterMap_getElem_range t]

/-- `_optimize_cluster_sequence` permutes the cluster list. -/
theorem optimizeClusterSequence_perm (d : DistanceFn)
    (cs : List GlobalRouteCluster) :
    (optimizeClusterSequence d cs).Perm cs := by
  unfold optimizeClusterSequence
  by_cases hlen : cs.length ≤ 2
  · rw [if_pos hlen]
  · rw [if_neg hlen]
    dsimp only
    have hbest := foldl_bestSeq_perm (clusterDistLookup d cs) cs.length
      (List.range cs.length) (List.range cs.length)
      (fun s hs => List.mem_range.1 hs) (List.Perm.refl _)
    have := hbest.filterMap fun i => cs[i]?
    rw [filterMap_getElem_range cs] at this
    exact this

/-- The closest point to a target cluster is drawn from the given
members. -/
theorem findClosestPointToCluster_mem (d : DistanceFn)
    (points : List Point) (target : GlobalRouteCluster)
    (h : points ≠ []) :
    findClosestPointToCluster d points target ∈ points := by
  cases points with
  | nil => exact absurd rfl h
  | cons p t =>
    unfold findClosestPointToCluster
    exact argminD_mem _ t p

/-- Connection-point optimization never changes cluster
memberships. -/
theorem optimizeClusterConnections_points (d : DistanceFn)
    (cs : List GlobalRouteCluster) :
    (optimizeClusterConnections d cs).map GlobalRouteCluster.waypoints =
      cs.map GlobalRouteCluster.waypoints := by
  unfold optimizeClusterConnections
  rw [List.map_map]
  have hfun : (GlobalRouteCluster.waypoints ∘ fun p : ℕ × GlobalRouteCluster =>
      if p.1 = 0 then
        if cs.length > 1 then
          { p.2 with endPoint := findClosestPointToCluster d p.2.waypoints (cs.getD 1 defaultCluster) }
        else
          { p.2 with startPoint := p.2.waypoints.headD p.2.startPoint,
                     endPoint := p.2.waypoints.getLastD p.2.endPoint }
      else if p.1 = cs.length - 1 then
        { p.2 with startPoint := findClosestPointToCluster d p.2.waypoints (cs.getD (p.1 - 1) defaultCluster) }
      else
        { p.2 with startPoint := findClosestPointToCluster d p.2.waypoints (cs.getD (p.1 - 1) defaultCluster),
                   endPoint := findClosestPointToCluster d p.2.waypoints (cs.getD (p.1 + 1) defaultCluster) }) =
      fun p : ℕ × GlobalRouteCluster => p.2.waypoints := by
    funext p
    simp only [Function.comp_apply]
    split_ifs <;> rfl
  rw [hfun]
  have h2 : (fun p : ℕ × GlobalRouteCluster => p.2.waypoints) =
      GlobalRouteCluster.waypoints ∘ Prod.snd := rfl
  rw [h2, ← List.map_map, List.enum_map_snd]

/-- Connection-point optimization keeps every cluster's entry and
exit among its members. -/
theorem optimizeClusterConnections_inv (d : DistanceFn)
    (cs : List GlobalRouteCluster)
    (h : ∀ c ∈ cs, c.startPoint ∈ c.waypoints ∧ c.endPoint ∈ c.waypoints) :
    ∀ c ∈ optimizeClusterConnections d cs,
      c.startPoint ∈ c.waypoints ∧ c.endPoint ∈ c.waypoints := by
  intro c hc
  unfold optimizeClusterConnections at hc
  obtain ⟨p, hp, rfl⟩ := List.mem_map.1 hc
  have horig := h p.2 (List.snd_mem_of_mem_enum hp)
  have hne : p.2.waypoints ≠ [] := List.ne_nil_of_mem horig.1
  dsimp only
  split_ifs
  · exact ⟨horig.1, findClosestPointToCluster_mem d _ _ hne⟩
  · constructor
    · cases hw : p.2.waypoints with
      | nil => exact absurd hw hne
      | cons w t => simp
    · cases hw : p.2.waypoints with
      | nil => exact absurd hw hne
      | cons w t =>
        simp only [List.getLastD_cons]
        exact List.getLastD_mem_cons t w
  · exact ⟨findClosestPointToCluster_mem d _ _ hne, horig.2⟩
  · exact ⟨findClosestPointToCluster_mem d _ _ hne,
      findClosestPointToCluster_mem d _ _ hne⟩

/-- The candidate fold of `_optimize_global_start_end` keeps its pair
inside the first and last cluster's members. -/
theorem bestGlobalPair_mem (d : DistanceFn) (fc lc : GlobalRouteCluster)
    (hs : fc.startPoint ∈ fc.waypoints) (he : lc.endPoint ∈ lc.waypoints) :
    (bestGlobalPair d fc lc).1 ∈ fc.waypoints ∧
      (bestGlobalPair d fc lc).2 ∈ lc.waypoints := by
  unfold bestGlobalPair
  have hgen : ∀ (l : List (Point × Point)) (init : (Point × Point) × Option ℚ),
      init.1.1 ∈ fc.waypoints → init.1.2 ∈ lc.waypoints →
      (∀ q ∈ l, q.1 ∈ fc.waypoints ∧ q.2 ∈ lc.waypoints) →
      ((l.foldl (fun st p =>
        if infLt (some (d (pointCoord p.1) (pointCoord p.2))) st.2 then
          (p, some (d (pointCoord p.1) (pointCoord p.2)))
        else st) init).1.1 ∈ fc.waypoints ∧
        (l.foldl (fun st p =>
          if infLt (some (d (pointCoord p.1) (pointCoord p.2))) st.2 then
            (p, some (d (pointCoord p.1) (pointCoord p.2)))
          else st) init).1.2 ∈ lc.waypoints) := by
    intro l
    induction l with
    | nil => exact fun init h1 h2 _ => ⟨h1, h2⟩
    | cons q l ih =>
      intro init h1 h2 hl
      rw [List.foldl_cons]
      refine ih _ ?_ ?_ fun r hr => hl r (by simp [hr])
      · by_cases hc : infLt (some (d (pointCoord q.1) (pointCoord q.2))) init.2
        · simpa [hc] using (hl q (by simp)).1
        · simpa [hc] using h1
      · by_cases hc : infLt (some (d (pointCoord q.1) (pointCoord q.2))) init.2
        · simpa [hc] using (hl q (by simp)).2
        · simpa [hc] using h2
  refine hgen _ _ hs he ?_
  intro q hq
  obtain ⟨a, b⟩ := q
  exact List.pair_mem_product.1 (by simpa using hq)

/-- Modifying the head cluster's entry point leaves memberships
unchanged. -/
theorem modifyHead_start_points (pair1 : Point) :
    ∀ cs : List GlobalRouteCluster,
      ((cs.modifyHead fun c => { c with startPoint := pair1 }).map
        GlobalRouteCluster.waypoints) = cs.map GlobalRouteCluster.waypoints
  | [] => rfl
  | c :: cs => rfl

/-- Global start-end optimization never changes cluster
memberships. -/
theorem optimizeGlobalStartEnd_points (d : DistanceFn)
    (cs : List GlobalRouteCluster) :
    (optimizeGlobalStartEnd d cs).map GlobalRouteCluster.waypoints =
      cs.map GlobalRouteCluster.waypoints := by
  unfold optimizeGlobalStartEnd
  by_cases hlen : cs.length ≤ 1
  · rw [if_pos hlen]
  · rw [if_neg hlen]
    dsimp only
    have hne2 : (cs.modifyHead fun c =>
        { c with startPoint := (bestGlobalPair d (cs.headD defaultCluster)
            (cs.getLastD defaultCluster)).1 }) ≠ [] := by
      cases cs with
      | nil => simp at hlen
      | cons c t => simp [List.modifyHead]
    set cs2 := cs.modifyHead fun c =>
      { c with startPoint := (bestGlobalPair d (cs.headD defaultCluster)
          (cs.getLastD defaultCluster)).1 } with hcs2
    have hsplit : cs2.dropLast ++ [cs2.getLast hne2] = cs2 :=
      List.dropLast_append_getLast hne2
    have hgetD : cs2.getLastD defaultCluster = cs2.getLast hne2 := by
      rw [List.getLastD_eq_getLast?, List.getLast?_eq_getLast cs2 hne2]
      rfl
    rw [hgetD, List.map_append]
    have hlastw : ({ cs2.getLast hne2 with
        endPoint := (bestGlobalPair d (cs.headD defaultCluster)
          (cs.getLastD defaultCluster)).2 } : GlobalRouteCluster).waypoints =
        (cs2.getLast hne2).waypoints := rfl
    calc (cs2.dropLast.map GlobalRouteCluster.waypoints) ++
          [({ cs2.getLast hne2 with
            endPoint := (bestGlobalPair d (cs.headD defaultCluster)
              (cs.getLastD defaultCluster)).2 } : GlobalRouteCluster).waypoints]
        = (cs2.dropLast.map GlobalRouteCluster.waypoints) ++
          [(cs2.getLast hne2).waypoints] := by rw [hlastw]
      _ = (cs2.dropLast ++ [cs2.getLast hne2]).map GlobalRouteCluster.waypoints := by
          rw [List.map_append]
          rfl
      _ = cs2.map GlobalRouteCluster.waypoints := by rw [hsplit]
      _ = cs.map GlobalRouteCluster.waypoints := modifyHead_start_points _ cs

/-- Global start-end optimization keeps every cluster's entry and
exit among its members. -/
theorem optimizeGlobalStartEnd_inv (d : DistanceFn)
    (cs : List GlobalRouteCluster)
    (h : ∀ c ∈ cs, c.startPoint ∈ c.waypoints ∧ c.endPoint ∈ c.waypoints) :
    ∀ c ∈ optimizeGlobalStartEnd d cs,
      c.startPoint ∈ c.waypoints ∧ c.endPoint ∈ c.waypoints := by
  unfold optimizeGlobalStartEnd
  by_cases hlen : cs.length ≤ 1
  · rw [if_pos hlen]
    exact h
  · rw [if_neg hlen]
    dsimp only
    cases cs with
    | nil => simp at hlen
    | cons c0 rest =>
      cases rest with
      | nil => simp at hlen
      | cons c1 t =>
        intro c hc
        have hlast_mem : (c0 :: c1 :: t).getLastD defaultCluster ∈ c0 :: c1 :: t := by
          rw [List.getLastD_cons]
          exact List.getLastD_mem_cons (c1 :: t) c0
        have hpair := bestGlobalPair_mem d ((c0 :: c1 :: t).headD defaultCluster)
          ((c0 :: c1 :: t).getLastD defaultCluster)
          (h c0 (by simp)).1 (h _ hlast_mem).2
        have hinv2 : ∀ x ∈ ((c0 :: c1 :: t).modifyHead fun c =>
            { c with startPoint := (bestGlobalPair d ((c0 :: c1 :: t).headD defaultCluster)
                ((c0 :: c1 :: t).getLastD defaultCluster)).1 }),
            x.startPoint ∈ x.waypoints ∧ x.endPoint ∈ x.waypoints := by
          intro x hx
          rw [List.modifyHead] at hx
          rcases List.mem_cons.1 hx with hx | hx
          · subst hx
            exact ⟨hpair.1, (h c0 (by simp)).2⟩
          · exact h x (by simp [hx])
        rw [List.mem_append] at hc
        rcases hc with hc | hc
        · exact hinv2 c ((List.dropLast_sublist _).mem hc)
        · rw [List.mem_singleton] at hc
          subst hc
          have hlast2_mem : (((c0 :: c1 :: t).modifyHead fun c =>
              { c with startPoint := (bestGlobalPair d ((c0 :: c1 :: t).headD defaultCluster)
                  ((c0 :: c1 :: t).getLastD defaultCluster)).1 }).getLastD defaultCluster) ∈
              ((c0 :: c1 :: t).modifyHead fun c =>
                { c with startPoint := (bestGlobalPair d ((c0 :: c1 :: t).headD defaultCluster)
                    ((c0 :: c1 :: t).getLastD defaultCluster)).1 }) := by
            rw [List.modifyHead, List.getLastD_cons]
            exact List.getLastD_mem_cons (c1 :: t) _
          have hwp_eq : (((c0 :: c1 :: t).modifyHead fun c =>
              { c with startPoint := (bestGlobalPair d ((c0 :: c1 :: t).headD defaultCluster)
                  ((c0 :: c1 :: t).getLastD defaultCluster)).1 }).getLastD defaultCluster).waypoints =
              ((c0 :: c1 :: t).getLastD defaultCluster).waypoints := by
            rw [List.modifyHead, List.getLastD_cons, List.getLastD_cons,
              List.getLastD_cons, List.getLastD_cons]
          constructor
          · exact (hinv2 _ hlast2_mem).1
          · rw [hwp_eq]
            exact hpair.2

/-- Every sub-cluster cut by `_split_large_cluster` has its entry and
exit among its members (they are its first and last member). -/
theorem splitLargeCluster_inv (d : DistanceFn) (c : GlobalRouteCluster) :
    ∀ x ∈ splitLargeCluster d c,
      x.startPoint ∈ x.waypoints ∧ x.endPoint ∈ x.waypoints := by
  intro x hx
  unfold splitLargeCluster at hx
  obtain ⟨p, hp, hmatch⟩ := List.mem_filterMap.1 hx
  cases hchunk : p.2 with
  | nil => rw [hchunk] at hmatch; cases hmatch
  | cons w ws =>
    rw [hchunk] at hmatch
    cases hmatch
    exact ⟨by simp, List.getLast_mem _⟩

/-- Size balancing keeps every cluster's entry and exit among its
members. -/
theorem balanceClusterSizes_inv (d : DistanceFn)
    (cs : List GlobalRouteCluster)
    (h : ∀ c ∈ cs, c.startPoint ∈ c.waypoints ∧ c.endPoint ∈ c.waypoints) :
    ∀ x ∈ balanceClusterSizes d cs,
      x.startPoint ∈ x.waypoints ∧ x.endPoint ∈ x.waypoints := by
  intro x hx
  unfold balanceClusterSizes at hx
  obtain ⟨l, hl, hxl⟩ := List.mem_flatten.1 hx
  obtain ⟨c, hc, rfl⟩ := List.mem_map.1 hl
  by_cases hbig : c.waypoints.length > 30
  · rw [if_pos hbig] at hxl
    exact splitLargeCluster_inv d c x hxl
  · rw [if_neg hbig] at hxl
    rw [List.mem_singleton] at hxl
    subst hxl
    exact h x hc

/-- Every cluster built by `_road_aware_clustering` has its entry and
exit among its members. -/
theorem roadAwareClustering_inv (d : DistanceFn) (wps : List Point)
    (K : ℕ) :
    ∀ c ∈ roadAwareClustering d wps K,
      c.startPoint ∈ c.waypoints ∧ c.endPoint ∈ c.waypoints := by
  unfold roadAwareClustering
  dsimp only
  refine balanceClusterSizes_inv d _ ?_
  intro c hc
  have hc2 := List.mem_of_mem_filter hc
  obtain ⟨cid, hcid, hmatch⟩ := List.mem_filterMap.1 hc2
  cases hfib : wps.filter (fun wp =>
      closestRepCluster d (clusterRepresentatives d wps K) wp == cid) with
  | nil => rw [hfib] at hmatch; cases hmatch
  | cons w ws =>
    rw [hfib] at hmatch
    cases hmatch
    refine ⟨by simp [checkNearbyWaypoints], ?_⟩
    simp only [checkNearbyWaypoints, List.getLastD_cons]
    exact List.getLastD_mem_cons ws w

/-- A permutation of cluster lists flattens to a permutation. -/
theorem perm_flatten_of_perm {α : Type} [DecidableEq α]
    {l₁ l₂ : List (List α)} (h : l₁.Perm l₂) : l₁.flatten.Perm l₂.flatten := by
  rw [List.perm_iff_count]
  intro a
  rw [List.count_flatten, List.count_flatten]
  exact (h.map (List.count a)).sum_eq

/-- Conservation through the full plan-building pipeline of
`_test_real_api_performance`: the flattened member lists of
`finalClusters` are a permutation of the input waypoints. -/
theorem finalClusters_points (d : DistanceFn) (wps : List Point) (K : ℕ)
    (hK : 1 ≤ K) :
    (((finalClusters d wps K).map GlobalRouteCluster.waypoints).flatten).Perm
      wps := by
  unfold finalClusters
  rw [optimizeGlobalStartEnd_points, optimizeClusterConnections_points]
  refine (perm_flatten_of_perm ?_).trans (roadAwareClustering_points d wps K hK)
  exact (optimizeClusterSequence_perm d _).map _

/-- Every cluster of the finished plan has its entry and exit among
its members. -/
theorem finalClusters_inv (d : DistanceFn) (wps : List Point) (K : ℕ) :
    ∀ c ∈ finalClusters d wps K,
      c.startPoint ∈ c.waypoints ∧ c.endPoint ∈ c.waypoints := by
  unfold finalClusters
  refine optimizeGlobalStartEnd_inv d _ ?_
  refine optimizeClusterConnections_inv d _ ?_
  intro c hc
  have : c ∈ roadAwareClustering d wps K :=
    ((optimizeClusterSequence_perm d _).mem_iff).1 hc
  exact roadAwareClustering_inv d wps K c this

/-- Under distinct ids, the members sharing the id of a given member
are exactly that member. -/
theorem filter_pid_eq_single (s : Point) :
    ∀ ws : List Point, (ws.map Point.pid).Nodup → s ∈ ws →
      ws.filter (fun w => w.pid == s.pid) = [s]
  | [], _, hs => absurd hs (List.not_mem_nil s)
  | h :: t, hnd, hs => by
    rw [List.map_cons, List.nodup_cons] at hnd
    by_cases hph : h.pid = s.pid
    · have hsh : s = h := by
        rcases List.mem_cons.1 hs with rfl | hst
        · rfl
        · exact absurd (hph ▸ List.mem_map_of_mem Point.pid hst) hnd.1
      subst hsh
      have hft : t.filter (fun w => w.pid == s.pid) = [] := by
        rw [List.filter_eq_nil_iff]
        intro w hw hbeq
        have hwpid : w.pid = s.pid := by simpa using hbeq
        have hmem : w.pid ∈ List.map Point.pid t := List.mem_map_of_mem Point.pid hw
        rw [hwpid] at hmem
        exact hnd.1 hmem
      rw [List.filter_cons, if_pos (by simpa using hph), hft]
    · have hst : s ∈ t := by
        rcases List.mem_cons.1 hs with rfl | hst
        · exact absurd rfl hph
        · exact hst
      rw [List.filter_cons, if_neg (by simpa using hph)]
      exact filter_pid_eq_single s t hnd.2 hst

/-- The fixed-endpoint tour permutes the middle points. -/
theorem tspFixedEndpoints_perm (d : DistanceFn) (s : Point)
    (middle : List Point) (e : Point) :
    (tspFixedEndpoints d s middle e).Perm middle := by
  unfold tspFixedEndpoints
  split_ifs with h1 h2
  · rw [List.isEmpty_iff.1 h1]
  · exact List.Perm.refl _
  · exact nnRoute_perm d s middle

/-- The internal reorder of `_optimize_cluster_internal_order` is a
permutation of the cluster's members, whenever the member ids are
pairwise distinct and the entry and exit are members. -/
theorem optimizeClusterInternalOrder_perm (d : DistanceFn)
    (c : GlobalRouteCluster) (hnd : (c.waypoints.map Point.pid).Nodup)
    (hs : c.startPoint ∈ c.waypoints) (he : c.endPoint ∈ c.waypoints) :
    (optimizeClusterInternalOrder d c).Perm c.waypoints := by
  unfold optimizeClusterInternalOrder
  by_cases h2 : c.waypoints.length ≤ 2
  · rw [if_pos h2]
  · rw [if_neg h2]
    by_cases h3 : c.waypoints.length = 3
    · rw [if_pos h3]
    · rw [if_neg h3]
      dsimp only
      have hlen4 : 4 ≤ c.waypoints.length := by omega
      by_cases hse : c.startPoint.pid = c.endPoint.pid
      · have hseq : c.startPoint = c.endPoint :=
          List.inj_on_of_nodup_map hnd hs he hse
        have hmid_eq : (c.waypoints.filter fun w =>
            w.pid != c.startPoint.pid && w.pid != c.endPoint.pid) =
            c.waypoints.filter fun w => !(w.pid == c.startPoint.pid) := by
          refine List.filter_congr fun w hw => ?_
          rw [← hse]
          exact Bool.and_self _
        have hone := filter_pid_eq_single c.startPoint c.waypoints hnd hs
        have hsplit := List.filter_append_perm
          (fun w => w.pid == c.startPoint.pid) c.waypoints
        rw [hone] at hsplit
        have hperm1 : c.waypoints.Perm (c.startPoint ::
            (c.waypoints.filter fun w => !(w.pid == c.startPoint.pid))) :=
          hsplit.symm
        have hlenmid : (c.waypoints.filter fun w =>
            !(w.pid == c.startPoint.pid)).length + 1 = c.waypoints.length := by
          have := hperm1.length_eq
          simpa using this.symm
        rw [hmid_eq]
        rw [if_neg (by
          intro hemp
          rw [List.isEmpty_iff.1 hemp] at hlenmid
          simp at hlenmid
          omega)]
        rw [if_pos hse]
        have hmidperm := tspFixedEndpoints_perm d c.startPoint
          (c.waypoints.filter fun w => !(w.pid == c.startPoint.pid)) c.endPoint
        rw [if_pos (by
          simp only [List.length_cons, hmidperm.length_eq]
          omega)]
        exact (hmidperm.cons c.startPoint).trans hperm1.symm
      · have hone := filter_pid_eq_single c.startPoint c.waypoints hnd hs
        have hsplit := List.filter_append_perm
          (fun w => w.pid == c.startPoint.pid) c.waypoints
        rw [hone] at hsplit
        set B := c.waypoints.filter fun w => !(w.pid == c.startPoint.pid) with hB
        have hBnd : (B.map Point.pid).Nodup :=
          ((List.filter_sublist _).map Point.pid).nodup hnd
        have heB : c.endPoint ∈ B := by
          rw [hB]
          refine List.mem_filter.2 ⟨he, ?_⟩
          simp
          exact fun hcontra => hse (hcontra.symm)
        have htwo := filter_pid_eq_single c.endPoint B hBnd heB
        have hsplitB := List.filter_append_perm
          (fun w => w.pid == c.endPoint.pid) B
        rw [htwo] at hsplitB
        have hmid_eq : (B.filter fun w => !(w.pid == c.endPoint.pid)) =
            c.waypoints.filter fun w =>
              w.pid != c.startPoint.pid && w.pid != c.endPoint.pid := by
          rw [hB, List.filter_filter]
          refine List.filter_congr fun w hw => ?_
          exact Bool.and_comm _ _
        have hperm2 : c.waypoints.Perm (c.startPoint :: c.endPoint ::
            (c.waypoints.filter fun w =>
              w.pid != c.startPoint.pid && w.pid != c.endPoint.pid)) := by
          refine hsplit.symm.trans ?_
          rw [← hmid_eq]
          refine List.Perm.cons c.startPoint ?_
          exact hsplitB.symm
        have hlenmid : (c.waypoints.filter fun w =>
            w.pid != c.startPoint.pid && w.pid != c.endPoint.pid).length + 2 =
            c.waypoints.length := by
          have := hperm2.length_eq
          simpa using this.symm
        rw [if_neg (by
          intro hemp
          rw [List.isEmpty_iff.1 hemp] at hlenmid
          simp at hlenmid
          omega)]
        rw [if_neg hse]
        have hmidperm := tspFixedEndpoints_perm d c.startPoint
          (c.waypoints.filter fun w =>
            w.pid != c.startPoint.pid && w.pid != c.endPoint.pid) c.endPoint
        rw [if_pos (by
          simp only [List.length_cons, List.length_append,
            hmidperm.length_eq, List.length_cons]
          simpa using hlenmid)]
        refine List.Perm.trans ?_ hperm2.symm
        refine List.Perm.cons c.startPoint ?_
        refine List.Perm.trans ?_ (List.perm_append_singleton c.endPoint _)
        exact hmidperm.append_right [c.endPoint]

/-- The measurement loop's contribution of one cluster permutes its
members, whenever ids are distinct and the endpoints are members. -/
theorem measuredBatch_perm (d : DistanceFn) (c : GlobalRouteCluster)
    (hnd : (c.waypoints.map Point.pid).Nodup)
    (hs : c.startPoint ∈ c.waypoints) (he : c.endPoint ∈ c.waypoints) :
    ((measuredBatch d c).getD []).Perm c.waypoints := by
  unfold measuredBatch
  split_ifs with h1 h2
  · have hnil : c.waypoints = [] := List.length_eq_zero.1 (by omega)
    simp [hnil]
  · simp
  · simpa using optimizeClusterInternalOrder_perm d c hnd hs he

/-- Collecting the per-cluster contributions preserves the flattened
member multiset, given the per-cluster permutations. -/
theorem filterMap_measuredBatch_perm (d : DistanceFn) :
    ∀ fcs : List GlobalRouteCluster,
      (∀ c ∈ fcs, ((measuredBatch d c).getD []).Perm c.waypoints) →
      ((fcs.filterMap (measuredBatch d)).flatten).Perm
        ((fcs.map GlobalRouteCluster.waypoints).flatten)
  | [], _ => List.Perm.refl _
  | c :: t, h => by
    rw [List.map_cons, List.flatten_cons, List.filterMap_cons]
    have ht := filterMap_measuredBatch_perm d t
      (fun x hx => h x (List.mem_cons_of_mem c hx))
    have hc := h c (List.mem_cons_self c t)
    cases hm : measuredBatch d c with
    | none =>
      rw [hm] at hc
      simp only [Option.getD_none] at hc
      have hnil : c.waypoints = [] := List.perm_nil.1 hc.symm
      rw [hnil, List.nil_append]
      exact ht
    | some l =>
      rw [hm] at hc
      simp only [Option.getD_some] at hc
      rw [List.flatten_cons]
      exact hc.append ht

/-- C2: every input waypoint appears in exactly one batch of the
returned clustering, and no batch holds a point that was not in the
input: the flattened batches of `_test_real_api_performance` are a
permutation of the input list, for any number of clusters K >= 1 and
any input whose point ids are pairwise distinct. -/
theorem claim2_conservation (d : DistanceFn) (wps : List Point) (K : ℕ)
    (hK : 1 ≤ K) (hids : (wps.map Point.pid).Nodup) :
    ((resultClusters d wps K).flatten).Perm wps := by
  have hpts := finalClusters_points d wps K hK
  have hflatnd : ((((finalClusters d wps K).map
      GlobalRouteCluster.waypoints).flatten).map Point.pid).Nodup :=
    ((hpts.map Point.pid).nodup_iff).2 hids
  unfold resultClusters
  refine (filterMap_measuredBatch_perm d _ ?_).trans hpts
  intro c hc
  have hinv := finalClusters_inv d wps K c hc
  have hmem : c.waypoints ∈
      (finalClusters d wps K).map GlobalRouteCluster.waypoints :=
    List.mem_map_of_mem _ hc
  have hsub : c.waypoints.Sublist
      ((finalClusters d wps K).map GlobalRouteCluster.waypoints).flatten :=
    List.sublist_flatten_of_mem hmem
  have hnd : (c.waypoints.map Point.pid).Nodup :=
    List.Nodup.sublist (hsub.map Point.pid) hflatnd
  exact measuredBatch_perm d c hnd hinv.1 hinv.2

/-- Concrete instance of the conservation theorem: four points with
distinct ids, K = 2, taxicab distance. -/
theorem claim2_conservation_witness :
    1 ≤ 2 ∧ (wps4.map Point.pid).Nodup ∧
      ((resultClusters dAbs wps4 2).flatten).Perm wps4 :=
  ⟨by decide, by decide, claim2_conservation dAbs wps4 2 (by decide) (by decide)⟩
